import Mathlib

/-!
Verification of the ark-service identifier core: a shallow embedding of the
checksum engine (`src/check_character.rs`), the identifier parser and
normalizer (`src/ark.rs`), the template resolver and URL validator
(`src/shoulder.rs`), the validation pipeline (`src/validation.rs`) and the
minting generator (`src/minting.rs`).

Rust strings are UTF-8 byte sequences; the embedding models a string as a
`List Char` of its Unicode scalar values and makes the byte-level operations
of the source (`len`, `split_at`, `bytes()`, byte-indexed slicing) explicit
through a UTF-8 encoding function.  A Rust panic is modelled as `none` of an
`Option` result where the source can reach one.
-/

namespace ArkService

/-- The characters of a Lean string literal, the working representation of a
Rust `&str` / `String`. -/
def str (s : String) : List Char := s.toList

/-- ASCII lower-casing of one character, the model of
`u8::to_ascii_lowercase` / `eq_ignore_ascii_case`.  It is also used where the
source calls the full Unicode `str::to_lowercase` (the NAAN lower-casing step
of `normalize_ark_string`); the model covers the ASCII subset, which is the
only case the claims and their inputs exercise. -/
def asciiLower (c : Char) : Char :=
  if 65 ≤ c.toNat ∧ c.toNat ≤ 90 then Char.ofNat (c.toNat + 32) else c

/-- Rust `char::is_whitespace`: the Unicode White_Space property, the full
code-point list. -/
def isWhitespaceChar (c : Char) : Bool :=
  let n := c.toNat
  (0x09 ≤ n ∧ n ≤ 0x0D) ∨ n = 0x20 ∨ n = 0x85 ∨ n = 0xA0 ∨ n = 0x1680 ∨
    (0x2000 ≤ n ∧ n ≤ 0x200A) ∨ n = 0x2028 ∨ n = 0x2029 ∨ n = 0x202F ∨
    n = 0x205F ∨ n = 0x3000

/-- Rust `char::is_control`: the Unicode Cc category. -/
def isControlChar (c : Char) : Bool :=
  c.toNat ≤ 0x1F ∨ (0x7F ≤ c.toNat ∧ c.toNat ≤ 0x9F)

/-- Rust `char::is_ascii_digit`. -/
def isAsciiDigit (c : Char) : Bool := 48 ≤ c.toNat ∧ c.toNat ≤ 57

/-- Byte length of a string: Rust `str::len`. -/
def utf8Len (l : List Char) : Nat := (l.map Char.utf8Size).sum

/-- The UTF-8 bytes of a string: Rust `str::bytes()` / `as_bytes()`. -/
def utf8EncodeChar (c : Char) : List Nat :=
  let n := c.toNat
  if n < 0x80 then [n]
  else if n < 0x800 then [0xC0 + n / 64, 0x80 + n % 64]
  else if n < 0x10000 then
    [0xE0 + n / 4096, 0x80 + n / 64 % 64, 0x80 + n % 64]
  else
    [0xF0 + n / 262144, 0x80 + n / 4096 % 64, 0x80 + n / 64 % 64, 0x80 + n % 64]

/-- UTF-8 encoding of a whole string. -/
def utf8Encode (l : List Char) : List Nat := (l.map utf8EncodeChar).flatten

/-- `p` is a leading fragment of `l`: Rust `str::starts_with`. -/
def listIsPfx : List Char → List Char → Bool
  | [], _ => true
  | _ :: _, [] => false
  | p :: ps, c :: cs => p = c ∧ listIsPfx ps cs

/-- `pat` occurs somewhere in `l`: Rust `str::contains(&str)`. -/
def containsSub (pat : List Char) : List Char → Bool
  | [] => listIsPfx pat []
  | c :: cs => listIsPfx pat (c :: cs) || containsSub pat cs

/-- Worker for `replaceAll`, structurally recursive on a fuel argument that is
always instantiated with the input length (each step consumes at least one
character, so that fuel is sufficient). -/
def replaceAllGo (pat rep : List Char) : Nat → List Char → List Char
  | 0, l => l
  | _ + 1, [] => []
  | n + 1, c :: cs =>
    if pat ≠ [] ∧ listIsPfx pat (c :: cs) then
      rep ++ replaceAllGo pat rep n (List.drop (pat.length - 1) cs)
    else
      c :: replaceAllGo pat rep n cs

/-- Rust `str::replace(pat, rep)`: replaces every occurrence of `pat`,
scanning left to right without overlap. -/
def replaceAll (pat rep l : List Char) : List Char :=
  replaceAllGo pat rep l.length l

/-- First piece of Rust `split('?')`: the text before the first `?`, or the
whole string. -/
def stripQuery (l : List Char) : List Char := l.takeWhile (fun c => c ≠ '?')

/-- Rust `str::trim_end_matches(&['/', '.'])`. -/
def trimTrailSlashDot (l : List Char) : List Char :=
  (l.reverse.dropWhile (fun c => c = '/' ∨ c = '.')).reverse

/-- Drop the first `n` UTF-8 bytes of a string: the byte slice `&s[n..]`.
When `n` falls inside a multi-byte character the source panics; that branch
(unreachable for the `"ark:"`-prefixed inputs this is applied to) keeps the
remaining characters. -/
def utf8Drop : Nat → List Char → List Char
  | 0, l => l
  | _ + 1, [] => []
  | n + 1, c :: cs =>
    if c.utf8Size ≤ n + 1 then utf8Drop (n + 1 - c.utf8Size) cs
    else cs

/-! ## Checksum engine (`src/check_character.rs`, constant from `src/config.rs`) -/

/-- `BETANUMERIC`: the 29-symbol alphabet `0123456789bcdfghjkmnpqrstvwxz`
(`src/config.rs`), as characters; the source stores the ASCII bytes. -/
def BETANUMERIC : List Char := str "0123456789bcdfghjkmnpqrstvwxz"

/-- The symbol of the alphabet at an ordinal already reduced mod 29
(`BETANUMERIC[check_ordinal]` in the source). -/
def betanumericAt (n : Nat) : Char :=
  BETANUMERIC.get ⟨n % 29, by have := Nat.mod_lt n (show 0 < 29 by decide); simpa [BETANUMERIC, str] using this⟩

/-- `BETANUMERIC_LOOKUP` applied to one byte: the ordinal 0-28 of a
betanumeric byte, with the upper-case letters mapped like their lower-case
forms and every other byte mapped to 0. -/
def betaOrdinal (b : Nat) : Nat :=
  let b' := if 65 ≤ b ∧ b ≤ 90 then b + 32 else b
  match (utf8Encode BETANUMERIC).indexOf? b' with
  | some i => i
  | none => 0

/-- Worker for `calculate_check_character`: the running total of the source's
loop, `pos` the 0-based index of the next byte. -/
def checkTotal (pos : Nat) : List Nat → Nat
  | [] => 0
  | b :: bs => (pos + 1) * betaOrdinal b + checkTotal (pos + 1) bs

/-- `calculate_check_character`: iterates over the UTF-8 bytes of the input,
sums `(position + 1) * ordinal`, and returns the alphabet symbol at the total
mod 29. -/
def calculate_check_character (identifier : List Char) : Char :=
  betanumericAt (checkTotal 0 (utf8Encode identifier))

/-- `validate_check_character`: `none` models the byte-index panic of
`split_at(len - 1)` when the final character is multi-byte; otherwise the
boolean the source returns. -/
def validate_check_character (identifier : List Char) : Option Bool :=
  if utf8Len identifier < 2 then some false
  else
    match identifier.getLast? with
    | none => some false
    | some last =>
      if last.utf8Size = 1 then
        let base := identifier.dropLast
        let expected := calculate_check_character base
        some (asciiLower last = asciiLower expected)
      else
        none

/-! ## Identifier parser and normalizer (`src/ark.rs`) -/

/-- An ARK identifier parsed into its components (`struct Ark`). -/
structure Ark where
  /-- The original ARK string as received (only `ark:/` normalized to `ark:`). -/
  original : List Char
  /-- The NAAN as received. -/
  naan : List Char
  /-- The shoulder of the ARK as received. -/
  shoulder : List Char
  /-- The blade of the ARK as received. -/
  blade : List Char
  /-- The qualifier of the ARK as received, query string included. -/
  qualifier : List Char
  /-- Fully normalized ARK for equality comparison only. -/
  normalized_ark : List Char
deriving DecidableEq, Repr

/-- The `PartialEq` implementation of `Ark`: equality is based solely on the
normalized form. -/
def arkEq (a b : Ark) : Prop := a.normalized_ark = b.normalized_ark

instance : DecidablePred fun p : Ark × Ark => arkEq p.1 p.2 :=
  fun _ => inferInstanceAs (Decidable (_ = _))

instance (a b : Ark) : Decidable (arkEq a b) :=
  inferInstanceAs (Decidable (_ = _))

/-- `extract_shoulder`: the leading run of characters up to and including the
first ASCII digit, `None` when no digit occurs. -/
def extract_shoulder : List Char → Option (List Char)
  | [] => none
  | c :: cs =>
    if isAsciiDigit c then some [c]
    else (extract_shoulder cs).map (fun s => c :: s)

/-- The NAAN lower-casing step of `normalize_ark_string`: when the first `/`
sits at a byte position greater than 4, the text between byte 4 and that `/`
is lower-cased and the result is rebuilt behind a literal `ark:` prefix. -/
def lowerNaanStep (ark : List Char) : List Char :=
  let pre := ark.takeWhile (fun c => c ≠ '/')
  let rest := ark.dropWhile (fun c => c ≠ '/')
  if rest = [] then ark
  else if 4 < utf8Len pre then
    str "ark:" ++ (utf8Drop 4 pre).map asciiLower ++ rest
  else ark

/-- `normalize_ark_string`: query string stripped, the alternate `ark:/`
prefix form collapsed, whitespace removed, the ASCII hyphen and the six
designated dash code points removed, the NAAN lower-cased, trailing `/` and
`.` trimmed — in exactly the source's order. -/
def normalize_ark_string (ark0 : List Char) : List Char :=
  let a1 := stripQuery ark0
  let a2 := replaceAll (str "ark:/") (str "ark:") a1
  let a3 := a2.filter (fun c => ¬ isWhitespaceChar c)
  let a4 := replaceAll ['-'] [] a3
  let a5 := replaceAll ['‐'] [] a4
  let a6 := replaceAll ['‑'] [] a5
  let a7 := replaceAll ['‒'] [] a6
  let a8 := replaceAll ['–'] [] a7
  let a9 := replaceAll ['—'] [] a8
  let a10 := replaceAll ['―'] [] a9
  trimTrailSlashDot (lowerNaanStep a10)

/-- `parse_ark`: collapses every `ark:/` to `ark:`, requires the `ark:`
prefix, splits NAAN from the rest at the first `/`, extracts the shoulder
from the pre-query-string substring, and splits blade from qualifier at the
first `/` when one occurs, else at the first `?` (the `/` consumed, the `?`
retained). -/
def parse_ark (ark : List Char) : Option Ark :=
  let original_form := replaceAll (str "ark:/") (str "ark:") ark
  if listIsPfx (str "ark:") original_form then
    -- `&original_form[4..]`: the prefix just checked is 4 ASCII bytes
    let original_remainder := original_form.drop 4
    -- `splitn(2, '/')`: NAAN, then the untouched remainder after the first `/`
    let naan := original_remainder.takeWhile (fun c => c ≠ '/')
    match original_remainder.dropWhile (fun c => c ≠ '/') with
    | [] => none
    | _ :: rest =>
      let rest_without_query := rest.takeWhile (fun c => c ≠ '?')
      match extract_shoulder rest_without_query with
      | none => none
      | some shoulder =>
        -- `&rest[shoulder.len()..]`: shoulder is a prefix of rest, so the
        -- byte slice drops exactly its characters
        let after_shoulder := rest.drop shoulder.length
        -- `find('/').or_else(|| find('?'))`: the first `/` anywhere wins
        let pieces :=
          if after_shoulder.contains '/' then
            (after_shoulder.takeWhile (fun c => c ≠ '/'),
              (after_shoulder.dropWhile (fun c => c ≠ '/')).tail)
          else if after_shoulder.contains '?' then
            (after_shoulder.takeWhile (fun c => c ≠ '?'),
              after_shoulder.dropWhile (fun c => c ≠ '?'))
          else (after_shoulder, [])
        some { original := original_form, naan := naan, shoulder := shoulder,
               blade := pieces.1, qualifier := pieces.2,
               normalized_ark := normalize_ark_string ark }
  else none

/-! ## Shoulder configuration (`src/shoulder.rs`, data part) and application
state (`src/config.rs`) -/

/-- `struct Shoulder`: a shoulder configuration. -/
structure Shoulder where
  /-- The routing pattern/template for this shoulder. -/
  route_pattern : List Char
  /-- The human-readable project name. -/
  project_name : List Char
  /-- Whether this shoulder uses a check character (default true). -/
  uses_check_character : Bool := true
  /-- Optional blade length override, excluding the check character. -/
  blade_length : Option Nat := none
deriving DecidableEq, Repr

/-- `struct AppState`: the read-only application state.  The source's
`HashMap<String, Shoulder>` is modelled as an association list with
first-match lookup. -/
structure AppState where
  /-- The configured NAAN of this service. -/
  naan : List Char
  /-- The default blade length for minted ARKs. -/
  default_blade_length : Nat
  /-- The maximum number of ARKs minted in one request. -/
  max_mint_count : Nat
  /-- The mapping of shoulders to their configurations. -/
  shoulders : List (List Char × Shoulder)
deriving DecidableEq, Repr

/-- `HashMap::get` over the association-list model of the shoulder map. -/
def lookupShoulder (m : List (List Char × Shoulder)) (k : List Char) : Option Shoulder :=
  match m with
  | [] => none
  | (k', v) :: rest => if k' = k then some v else lookupShoulder rest k

/-! ## Validation pipeline (`src/validation.rs`) -/

/-- `struct ValidationResult`. -/
structure ValidationResult where
  valid : Bool
  naan : Option (List Char)
  shoulder : Option (List Char)
  blade : Option (List Char)
  shoulder_registered : Option Bool
  has_check_character : Option Bool
  check_character_valid : Option Bool
  error : Option (List Char)
  warnings : Option (List (List Char))
deriving DecidableEq, Repr

/-- `ValidationResult::parse_error()`. -/
def ValidationResult.parse_error : ValidationResult :=
  { valid := false, naan := none, shoulder := none, blade := none,
    shoulder_registered := none, has_check_character := none,
    check_character_valid := none,
    error := some (str "Failed to parse ARK structure"), warnings := none }

/-- `is_betanumeric`: every byte of the string is a byte of `BETANUMERIC`. -/
def is_betanumeric (s : List Char) : Bool :=
  (utf8Encode s).all (fun b => (utf8Encode BETANUMERIC).contains b)

/-- `validate_ark`.  The check-character step calls
`validate_check_character`, whose panic case (`none`) cannot occur there
because `is_betanumeric` has already confined shoulder and blade to ASCII;
the model keeps the source's value via `getD` on that unreachable branch. -/
def validate_ark (state : AppState) (ark : List Char) (has_check_character : Option Bool) :
    ValidationResult :=
  match parse_ark ark with
  | none => ValidationResult.parse_error
  | some parsed =>
    if !(is_betanumeric parsed.shoulder && is_betanumeric parsed.blade) then
      { valid := false, naan := some parsed.naan, shoulder := some parsed.shoulder,
        blade := some parsed.blade, shoulder_registered := none,
        has_check_character := none, check_character_valid := none,
        error := some (str "Shoulder and blade must contain only betanumeric characters (0-9, b-z excluding vowels)"),
        warnings := none }
    else
      let naan_matches : Bool := parsed.naan == state.naan
      let naan_error : Option (List Char) :=
        if naan_matches then none
        else some (str "NAAN " ++ parsed.naan ++ str " does not match configured NAAN " ++ state.naan)
      let shoulder_config := lookupShoulder state.shoulders parsed.shoulder
      let shoulder_registered := shoulder_config.isSome
      let should_validate_check : Option Bool :=
        match has_check_character with
        | some has_check => some has_check
        | none => shoulder_config.map Shoulder.uses_check_character
      match should_validate_check with
      | none =>
        { valid := false, naan := some parsed.naan, shoulder := some parsed.shoulder,
          blade := some parsed.blade, shoulder_registered := some false,
          has_check_character := none, check_character_valid := none,
          error := some (str "Unknown shoulder. Please specify has_check_character parameter to validate unregistered shoulders."),
          warnings := none }
      | some should_validate_check =>
        let pieces : Option Bool × Option (List (List Char)) :=
          if should_validate_check && decide (1 < utf8Len parsed.blade) then
            let identifier_for_check := parsed.shoulder ++ parsed.blade
            let is_valid := (validate_check_character identifier_for_check).getD false
            let warnings_list :=
              (if is_valid then [] else
                [str "Check character validation failed. Either there\x27s an error or this ARK has no check character."]) ++
              (if shoulder_registered then [] else
                [str "Shoulder is not registered in the system."])
            (some is_valid, if warnings_list = [] then none else some warnings_list)
          else if ¬ should_validate_check then
            (some true, none)
          else
            (none, some [str "Blade too short for check character validation"])
        let valid := naan_matches && pieces.1.getD true && shoulder_registered
        { valid := valid, naan := some parsed.naan, shoulder := some parsed.shoulder,
          blade := some parsed.blade, shoulder_registered := some shoulder_registered,
          has_check_character := some should_validate_check,
          check_character_valid := pieces.1,
          error := naan_error, warnings := pieces.2 }

/-! ## Minting generator (`src/minting.rs`) -/

/-- `mint_ark`, with the output of `generate_random_blade(blade_length)`
passed in as the `blade` argument: the generator draws each character
uniformly from `BETANUMERIC`, so its possible outcomes are exactly the lists
of `blade_length` betanumeric characters. -/
def mint_ark (naan shoulder blade : List Char) (uses_check_character : Bool) : List Char :=
  if uses_check_character then
    let identifier_for_check := shoulder ++ blade
    let check_character := calculate_check_character identifier_for_check
    str "ark:" ++ naan ++ str "/" ++ shoulder ++ blade ++ [check_character]
  else
    str "ark:" ++ naan ++ str "/" ++ shoulder ++ blade

/-! ## URL parsing and encoding

Modelled from the spec: the repository delegates URL parsing to the external
`url` crate (a WHATWG URL parser) and percent-encoding to the external
`urlencoding` crate; neither is code of this repository.  The model below
follows the WHATWG URL standard as far as the claims need it: scheme
extraction, authority/host parsing for the special schemes (where a missing
`//` is tolerated and forbidden domain code points such as a space make the
parse fail), and opaque-path acceptance for non-special schemes such as
`about:`.  Percent-encoding of path/query text and IDNA host handling are not
modelled; non-ASCII host characters are treated as a parse failure. -/

instance {ε α : Type} [DecidableEq ε] [DecidableEq α] : DecidableEq (Except ε α) := fun x y =>
  match x, y with
  | .ok a, .ok b =>
    if h : a = b then isTrue (congrArg Except.ok h)
    else isFalse (fun he => h (Except.ok.inj he))
  | .error a, .error b =>
    if h : a = b then isTrue (congrArg Except.error h)
    else isFalse (fun he => h (Except.error.inj he))
  | .ok _, .error _ => isFalse (fun he => Except.noConfusion he)
  | .error _, .ok _ => isFalse (fun he => Except.noConfusion he)

/-- ASCII letter. -/
def isAsciiAlpha (c : Char) : Bool :=
  (97 ≤ c.toNat ∧ c.toNat ≤ 122) ∨ (65 ≤ c.toNat ∧ c.toNat ≤ 90)

/-- A character the WHATWG scheme grammar accepts after the first letter. -/
def isSchemeChar (c : Char) : Bool :=
  isAsciiAlpha c ∨ isAsciiDigit c ∨ c = '+' ∨ c = '-' ∨ c = '.'

/-- The scheme of a URL string: the leading run of scheme characters when it
is non-empty, starts with a letter and is followed by `:`; lower-cased. -/
def schemeOf (l : List Char) : Option (List Char) :=
  let p := l.takeWhile isSchemeChar
  if p ≠ [] ∧ l.get? p.length = some ':' ∧ isAsciiAlpha (p.headD '0') then
    some (p.map asciiLower)
  else none

/-- A parsed URL: its scheme, its host when one exists, and the serialized
text after `scheme:`. -/
structure Url where
  scheme : List Char
  host : Option (List Char)
  rest : List Char
deriving DecidableEq, Repr

/-- `Url::to_string` / `as_str`: the serialization. -/
def urlToString (u : Url) : List Char := u.scheme ++ ':' :: u.rest

/-- WHATWG input preprocessing: trim leading and trailing C0 controls and
spaces, then remove every tab and newline. -/
def preprocessUrl (l : List Char) : List Char :=
  let t := ((l.dropWhile (fun c => c.toNat ≤ 0x20)).reverse.dropWhile
    (fun c => c.toNat ≤ 0x20)).reverse
  t.filter (fun c => ¬ (c = '\t' ∨ c = '\n' ∨ c = '\r'))

/-- The WHATWG special schemes. -/
def specialSchemes : List (List Char) :=
  [str "http", str "https", str "ws", str "wss", str "ftp", str "file"]

/-- WHATWG forbidden domain code point (C0 controls, space, the structural
characters, `%`, DEL); non-ASCII is also rejected since IDNA is not
modelled. -/
def forbiddenDomainChar (c : Char) : Bool :=
  c.toNat ≤ 0x20 ∨ c = '#' ∨ c = '/' ∨ c = ':' ∨ c = '<' ∨ c = '>' ∨ c = '?' ∨
    c = '@' ∨ c = '[' ∨ c = '\\' ∨ c = ']' ∨ c = '^' ∨ c = '|' ∨ c = '%' ∨
    0x7F ≤ c.toNat

/-- `Url::parse`.  For a special scheme any run of leading slashes (including
none: `https:foo`) is skipped and an authority is required; for a non-special
scheme without `//` the remainder is an opaque path that always parses. -/
def urlParse (input : List Char) : Except (List Char) Url :=
  let l := preprocessUrl input
  match schemeOf l with
  | none => .error (str "relative URL without a base")
  | some scheme =>
    let rest := l.drop ((l.takeWhile isSchemeChar).length + 1)
    if specialSchemes.contains scheme then
      let afterSlashes := rest.dropWhile (fun c => c = '/' ∨ c = '\\')
      let authority :=
        afterSlashes.takeWhile (fun c => ¬ (c = '/' ∨ c = '\\' ∨ c = '?' ∨ c = '#'))
      let afterAuth :=
        afterSlashes.dropWhile (fun c => ¬ (c = '/' ∨ c = '\\' ∨ c = '?' ∨ c = '#'))
      let hostPort := (authority.reverse.takeWhile (fun c => c ≠ '@')).reverse
      let host := hostPort.takeWhile (fun c => c ≠ ':')
      let portText := (hostPort.dropWhile (fun c => c ≠ ':')).tail
      if host = [] then .error (str "empty host")
      else if host.any forbiddenDomainChar then .error (str "invalid domain character")
      else if ¬ portText.all isAsciiDigit then .error (str "invalid port number")
      else
        let hostL := host.map asciiLower
        let portPart :=
          if hostPort.dropWhile (fun c => c ≠ ':') = [] then [] else ':' :: portText
        let pathPart := if afterAuth = [] then str "/" else afterAuth
        .ok { scheme := scheme, host := some hostL,
              rest := str "//" ++ hostL ++ portPart ++ pathPart }
    else
      if listIsPfx (str "//") rest then
        let afterSlashes := rest.drop 2
        let authority :=
          afterSlashes.takeWhile (fun c => ¬ (c = '/' ∨ c = '?' ∨ c = '#'))
        if authority.any (fun c => forbiddenDomainChar c ∧ c ≠ '%') then
          .error (str "invalid host character")
        else .ok { scheme := scheme, host := some authority, rest := rest }
      else
        .ok { scheme := scheme, host := none, rest := rest }

/-- One hexadecimal digit, upper-case. -/
def hexDigit (n : Nat) : Char := (str "0123456789ABCDEF").getD n '0'

/-- `urlencoding::encode` of one byte: unreserved bytes kept, all others
percent-encoded. -/
def urlencodeByte (b : Nat) : List Char :=
  if (48 ≤ b ∧ b ≤ 57) ∨ (65 ≤ b ∧ b ≤ 90) ∨ (97 ≤ b ∧ b ≤ 122) ∨
      b = 45 ∨ b = 95 ∨ b = 46 ∨ b = 126 then
    [Char.ofNat b]
  else
    ['%', hexDigit (b / 16), hexDigit (b % 16)]

/-- `urlencoding::encode`. -/
def urlencode (l : List Char) : List Char := ((utf8Encode l).map urlencodeByte).flatten

/-! ## Template resolver and URL validator (`src/shoulder.rs`) -/

/-- First occurrence of `pat` in `l`: the text before it and the text after
it, `none` when `pat` does not occur (Rust `str::find` plus slicing). -/
def splitFirstSub (pat : List Char) : List Char → Option (List Char × List Char)
  | [] => if pat = [] then some ([], []) else none
  | c :: cs =>
    if listIsPfx pat (c :: cs) then some ([], (c :: cs).drop pat.length)
    else (splitFirstSub pat cs).map (fun p => (c :: p.1, p.2))

/-- Worker for `splitOnSubAll` on a fuel argument (each split consumes at
least one character of a non-empty pattern). -/
def splitOnSubGo (pat : List Char) : Nat → List Char → List (List Char)
  | 0, l => [l]
  | n + 1, l =>
    match splitFirstSub pat l with
    | none => [l]
    | some (before, after) => before :: splitOnSubGo pat n after

/-- Rust `str::split(&str)` collected into a list. -/
def splitOnSubAll (pat l : List Char) : List (List Char) :=
  splitOnSubGo pat (l.length + 1) l

/-- The template-variable test shared by `validate_route_pattern` and
`apply_template`. -/
def hasTemplateVars (pat : List Char) : Bool :=
  containsSub (str "$\x7b") pat ∨ containsSub (str "\x7bpid\x7d") pat ∨
    containsSub (str "\x7bscheme\x7d") pat ∨ containsSub (str "\x7bcontent\x7d") pat ∨
    containsSub (str "\x7bprefix\x7d") pat ∨ containsSub (str "\x7bvalue\x7d") pat ∨
    containsSub (str "\x7bnaan\x7d") pat

/-- `Shoulder::validate_base_url` (its `&self` is unused). -/
def validate_base_url (url_str : List Char) : Except (List Char) Unit :=
  match urlParse url_str with
  | .error e => .error (str "Invalid URL in route_pattern: " ++ e)
  | .ok parsed =>
    if parsed.scheme = str "http" ∨ parsed.scheme = str "https" then .ok ()
    else .error (str "Only http and https schemes allowed, found: " ++ parsed.scheme)

/-- `Shoulder::validate_redirect_url` (its `&self` is unused). -/
def validate_redirect_url (url_str : List Char) : Except (List Char) Url :=
  match urlParse url_str with
  | .error e => .error (str "Invalid redirect URL constructed: " ++ e)
  | .ok parsed =>
    if parsed.scheme = str "http" ∨ parsed.scheme = str "https" then .ok parsed
    else .error (str "Redirect URL has invalid scheme (expected http/https): " ++ parsed.scheme)

/-- The placeholder substitution of `validate_route_pattern`. -/
def testUrlOf (pat : List Char) : List Char :=
  let ph := str "placeholder"
  let t := replaceAll (str "$\x7bpid\x7d") ph pat
  let t := replaceAll (str "$\x7bscheme\x7d") ph t
  let t := replaceAll (str "$\x7bcontent\x7d") ph t
  let t := replaceAll (str "$\x7bprefix\x7d") ph t
  let t := replaceAll (str "$\x7bvalue\x7d") ph t
  let t := replaceAll (str "\x7bpid\x7d") ph t
  let t := replaceAll (str "\x7bscheme\x7d") ph t
  let t := replaceAll (str "\x7bcontent\x7d") ph t
  let t := replaceAll (str "\x7bprefix\x7d") ph t
  let t := replaceAll (str "\x7bvalue\x7d") ph t
  replaceAll (str "\x7bnaan\x7d") ph t

/-- `Shoulder::validate_route_pattern`: control characters, base-URL validity
of the placeholder-substituted pattern, and no template marker in the scheme
or host position. -/
def Shoulder.validate_route_pattern (s : Shoulder) : Except (List Char) Unit :=
  if s.route_pattern.any isControlChar then
    .error (str "route_pattern contains control characters")
  else if ¬ hasTemplateVars s.route_pattern then validate_base_url s.route_pattern
  else
    let test_url := testUrlOf s.route_pattern
    match validate_base_url test_url with
    | .error e => .error e
    | .ok _ =>
      match urlParse test_url with
      | .error _ => .ok ()
      | .ok parsed =>
        -- `find("://").unwrap_or(0)`: a pattern without `://`, or one that
        -- starts with it, skips the scheme-position check
        let schemeBad :=
          match splitFirstSub (str "://") s.route_pattern with
          | none => false
          | some p => p.1 ≠ [] ∧ (p.1.contains '$' ∨ p.1.contains '\x7b')
        if schemeBad then
          .error (str "Template variables not allowed in URL scheme position")
        else if parsed.host.isSome then
          match (splitOnSubAll (str "://") s.route_pattern).get? 1 with
          | none => .ok ()
          | some after_scheme =>
            -- `find('/').or_else(|| find('?'))`: the first `/` anywhere wins
            let host_part :=
              if after_scheme.contains '/' then after_scheme.takeWhile (fun c => c ≠ '/')
              else if after_scheme.contains '?' then after_scheme.takeWhile (fun c => c ≠ '?')
              else after_scheme
            if host_part.contains '$' ∨ host_part.contains '\x7b' then
              .error (str "Template variables not allowed in URL host position")
            else .ok ()
        else .ok ()

/-- `Shoulder::apply_template`: the N2T-style template substitution. -/
def Shoulder.apply_template (s : Shoulder) (parsed_ark : Ark) : List Char :=
  let pid := parsed_ark.original
  let schemeVal := str "ark"
  let content :=
    if parsed_ark.qualifier = [] then
      parsed_ark.naan ++ str "/" ++ parsed_ark.shoulder ++ parsed_ark.blade
    else
      parsed_ark.naan ++ str "/" ++ parsed_ark.shoulder ++ parsed_ark.blade ++
        str "/" ++ parsed_ark.qualifier
  let prefixVal := parsed_ark.naan
  let value :=
    if parsed_ark.qualifier = [] then parsed_ark.shoulder ++ parsed_ark.blade
    else if listIsPfx (str "?") parsed_ark.qualifier then
      parsed_ark.shoulder ++ parsed_ark.blade ++ parsed_ark.qualifier
    else
      parsed_ark.shoulder ++ parsed_ark.blade ++ str "/" ++ parsed_ark.qualifier
  if ¬ hasTemplateVars s.route_pattern then s.route_pattern ++ pid
  else
    let t := replaceAll (str "$\x7bpid\x7d") (str "\x7bpid\x7d") s.route_pattern
    let t := replaceAll (str "$\x7bscheme\x7d") (str "\x7bscheme\x7d") t
    let t := replaceAll (str "$\x7bcontent\x7d") (str "\x7bcontent\x7d") t
    let t := replaceAll (str "$\x7bprefix\x7d") (str "\x7bprefix\x7d") t
    let t := replaceAll (str "$\x7bvalue\x7d") (str "\x7bvalue\x7d") t
    let t := replaceAll (str "\x7bnaan\x7d") (str "\x7bprefix\x7d") t
    let t := replaceAll (str "\x7bpid\x7d") pid t
    let t := replaceAll (str "\x7bscheme\x7d") schemeVal t
    let t := replaceAll (str "\x7bcontent\x7d") content t
    let t := replaceAll (str "\x7bprefix\x7d") prefixVal t
    replaceAll (str "\x7bvalue\x7d") value t

/-- `Shoulder::resolve`: applies the template, validates the constructed URL,
and on failure returns the inert `about:blank#error=` replacement carrying
the URL-encoded error message. -/
def Shoulder.resolve (s : Shoulder) (parsed_ark : Ark) : List Char :=
  let target := s.apply_template parsed_ark
  match validate_redirect_url target with
  | .ok validated_url => urlToString validated_url
  | .error e => str "about:blank#error=" ++ urlencode e

/-! ## Claim-side formulations

These definitions follow the wording of spec sentences, to be compared with
the source-translated definitions above. -/

/-- The checksum ordinal of one character as the claim for
`calculate_check_character` words it: the index of the case-folded character
in the 29-symbol alphabet, 0 for characters outside it. -/
def claimCheckOrdinalChar (c : Char) : Nat :=
  match BETANUMERIC.indexOf? (asciiLower c) with
  | some i => i
  | none => 0

/-- The checksum as the claim words it, over the characters of the input:
`sum(position_i(1-indexed) * ordinal_i) mod 29`, positions indexing the
character sequence. -/
def claimCheckCharacterChars (s : List Char) : Char :=
  betanumericAt ((s.enum.map (fun p => (p.1 + 1) * claimCheckOrdinalChar p.2)).sum)

/-- The same formula over the UTF-8 byte sequence, the amended reading. -/
def specCheckCharacterBytes (s : List Char) : Char :=
  betanumericAt (((utf8Encode s).enum.map (fun p => (p.1 + 1) * betaOrdinal p.2)).sum)

/-- A character `normalize_ark_string` removes: whitespace, the ASCII hyphen,
or one of the six designated dash code points U+2010 – U+2015. -/
def isJunkChar (c : Char) : Bool :=
  isWhitespaceChar c || c = '-' || c = '‐' || c = '‑' || c = '‒' || c = '–' ||
    c = '—' || c = '―'

/-- The normal form `normalize_ark_string` computes whenever the collapse of
`ark:/` has nothing to do on the query-stripped string (the guard of the
amended C7): query stripped, junk filtered, NAAN lower-cased, trailing `/`
and `.` trimmed. -/
def canonicalArk (l : List Char) : List Char :=
  trimTrailSlashDot (lowerNaanStep ((stripQuery l).filter (fun c => !(isJunkChar c))))

/-- One elementary difference the C7 claim quantifies over, guarded so that
the `ark:/` collapse is inert on both sides (the guard the counterexample
shows to be necessary): insertion of a hyphen/dash/whitespace character,
an ASCII case change inside the NAAN, an appended trailing `/` or `.`
(when a `/` separator already occurs), or an appended query string. -/
inductive ArkVariantStep : List Char → List Char → Prop
  /-- Insert one junk character anywhere. -/
  | insertJunk (x y u v : List Char) (c : Char) :
      isJunkChar c = true → x = u ++ v → y = u ++ c :: v →
      containsSub (str "ark:/") (stripQuery x) = false →
      containsSub (str "ark:/") (stripQuery y) = false →
      ArkVariantStep x y
  /-- Change the ASCII letter case of the NAAN segment. -/
  | naanCase (x y n1 n2 r : List Char) :
      x = str "ark:" ++ (n1 ++ '/' :: r) → y = str "ark:" ++ (n2 ++ '/' :: r) →
      (∀ c ∈ n1, c ≠ '/' ∧ c ≠ '?') → (∀ c ∈ n2, c ≠ '/' ∧ c ≠ '?') →
      n1.map asciiLower = n2.map asciiLower →
      containsSub (str "ark:/") (stripQuery x) = false →
      containsSub (str "ark:/") (stripQuery y) = false →
      ArkVariantStep x y
  /-- Append a trailing `/` or `.`. -/
  | trailSep (x y : List Char) (c : Char) :
      (c = '/' ∨ c = '.') → y = x ++ [c] →
      ('?' ∉ x → '/' ∈ x) →
      containsSub (str "ark:/") (stripQuery x) = false →
      containsSub (str "ark:/") (stripQuery y) = false →
      ArkVariantStep x y
  /-- Append a query string to a string without one. -/
  | query (x y t : List Char) :
      '?' ∉ x → y = x ++ '?' :: t →
      ArkVariantStep x y

/-- Strings differing by a chain of elementary differences, in either
direction: the difference relation of the amended C7. -/
def ArkVariant : List Char → List Char → Prop :=
  Relation.ReflTransGen (fun a b => ArkVariantStep a b ∨ ArkVariantStep b a)

/-! ## Concrete fixtures for evaluation -/

/-- The shoulder map of `create_test_state` in the source's validation tests:
`x6` with check characters, `b3` without. -/
def sampleShoulders : List (List Char × Shoulder) :=
  [(str "x6", { route_pattern := str "https://example.org/$\x7bvalue\x7d",
                project_name := str "Test Project" }),
   (str "b3", { route_pattern := str "https://beta.org/items/$\x7bvalue\x7d",
                project_name := str "Beta Project", uses_check_character := false })]

/-- The application state of the source's validation tests. -/
def sampleState : AppState :=
  { naan := str "12345", default_blade_length := 8, max_mint_count := 1000,
    shoulders := sampleShoulders }

/-- A shoulder configuration around a route pattern, check characters on, for
concrete evaluation. -/
def mkShoulder (pat : String) : Shoulder :=
  { route_pattern := str pat, project_name := str "Test" }

/-- The parsed components of the C2 witness input `ark:1/x6np?a/b`. -/
def c2WitnessArk : Ark :=
  { original := str "ark:1/x6np?a/b", naan := str "1", shoulder := str "x6",
    blade := str "np?a", qualifier := str "b", normalized_ark := str "ark:1/x6np" }

end ArkService

namespace ArkService

example : calculate_check_character (str "13030/xf93gt2") = 'q' := by decide

example : calculate_check_character (str "bcd") = 'b' := by decide

example : validate_check_character (str "13030/xf93gt2q") = some true := by decide

example : validate_check_character (str "13030/xf93gt2x") = some false := by decide

example : validate_check_character (str "a") = some false := by decide

example : validate_check_character (str "é") = none := by decide

example : extract_shoulder (str "x6np1wh8k") = some (str "x6") := by decide

example : extract_shoulder (str "xyz") = none := by decide

example :
    (parse_ark (str "ark:12345/x6np1wh8k/nl7l/page2.pdf")).map Ark.naan =
      some (str "12345") := by decide

example :
    (parse_ark (str "ark:12345/x6np1wh8k/nl7l/page2.pdf")).map Ark.shoulder =
      some (str "x6") := by decide

example :
    (parse_ark (str "ark:12345/x6np1wh8k/nl7l/page2.pdf")).map Ark.blade =
      some (str "np1wh8k") := by decide

example :
    (parse_ark (str "ark:12345/x6np1wh8k/nl7l/page2.pdf")).map Ark.qualifier =
      some (str "nl7l/page2.pdf") := by decide

example :
    (parse_ark (str "ark:12345/x6np1wh8k")).map Ark.normalized_ark =
      (parse_ark (str "ark:/12345/x6np1wh8k")).map Ark.normalized_ark := by decide

example :
    (parse_ark (str "ark:12345/x5-4-xz-321")).map Ark.normalized_ark =
      (parse_ark (str "ark:12345/x54xz321")).map Ark.normalized_ark := by decide

example :
    (parse_ark (str "ark:12345/x5-4-xz-321")).map Ark.blade = some (str "-4-xz-321") := by decide

example :
    (parse_ark (str "ark:12345/x6np–1wh8k")).map Ark.normalized_ark =
      (parse_ark (str "ark:12345/x6np1wh8k")).map Ark.normalized_ark := by decide

example :
    (parse_ark (str "ark:12345/x6np1wh8k?foo=bar&baz=qux")).map Ark.normalized_ark =
      (parse_ark (str "ark:12345/x6np1wh8k")).map Ark.normalized_ark := by decide

example :
    (parse_ark (str "ark:12345/x6np1wh8k?info")).map Ark.qualifier =
      some (str "?info") := by decide

example :
    (parse_ark (str "ark:ABCDE/x6np1wh8k")).map Ark.normalized_ark =
      (parse_ark (str "ark:abcde/x6np1wh8k")).map Ark.normalized_ark := by decide

example :
    (parse_ark (str "ark:/ABCDE/x6-np-1wh8k/page2.pdf/?foo=bar")).map Ark.normalized_ark =
      (parse_ark (str "ark:abcde/x6np1wh8k/page2.pdf")).map Ark.normalized_ark := by decide

example :
    (parse_ark (str "ark:12345/x6np\n1wh8k")).map Ark.normalized_ark =
      (parse_ark (str "ark:12345/x6np1wh8k")).map Ark.normalized_ark := by decide

example :
    (parse_ark (str "ark:12345/x6np1wh8k.")).map Ark.normalized_ark =
      (parse_ark (str "ark:12345/x6np1wh8k")).map Ark.normalized_ark := by decide

-- C2 scouting: a `?` before a `/` after the shoulder
example :
    (parse_ark (str "ark:1/x6np?a/b")).map Ark.blade = some (str "np?a") := by decide

example :
    (parse_ark (str "ark:1/x6np?a/b")).map Ark.qualifier = some (str "b") := by decide

-- C3 scouting: an interior `ark:/` is collapsed too
example :
    (parse_ark (str "ark:1/x6?x=ark:/9")).map Ark.original =
      some (str "ark:1/x6?x=ark:9") := by decide

-- C7 scouting: one whitespace difference, both parse, normalized forms differ
example : (parse_ark (str "ark:/1/x6")).map Ark.normalized_ark = some (str "ark:1/x6") := by decide

example : (parse_ark (str "ark: /1/x6")).map Ark.normalized_ark = some (str "ark:/1/x6") := by decide

-- C8 scouting: a NAAN ending in "ark:" breaks mint-then-parse
example : parse_ark (str "ark:zark:/x6") = none := by decide

end ArkService

namespace ArkService

example : (validate_ark sampleState (str "ark:/12345/x6np1wh8f") (some true)).valid = true := by
  decide

example :
    (validate_ark sampleState (str "ark:/12345/x6np1wh8x") (some true)).check_character_valid =
      some false := by decide

example : (validate_ark sampleState (str "ark:/99999/x6nmkd123") none).valid = false := by decide

example : (validate_ark sampleState (str "not-an-ark") none).error =
    some (str "Failed to parse ARK structure") := by decide

example : (validate_ark sampleState (str "ark:/12345/b3nmkd123") none).valid = true := by decide

example :
    (validate_ark sampleState (str "ark:/12345/b3nmkd123") none).check_character_valid =
      some true := by decide

example : (validate_ark sampleState (str "ark:/12345/x6b") (some true)).valid = true := by decide

example :
    (validate_ark sampleState (str "ark:/12345/x6b") (some true)).check_character_valid =
      none := by decide

example :
    (validate_ark sampleState (str "ark:/12345/x6b") (some true)).warnings =
      some [str "Blade too short for check character validation"] := by decide

example : (validate_ark sampleState (str "ark:/12345/a6nmkd123") none).valid = false := by decide

example : (validate_ark sampleState (str "ark:/12345/x6Nmkd123") none).valid = false := by decide

-- C9 scouting: registered shoulder, short non-betanumeric blade, hint true
example : (validate_ark sampleState (str "ark:12345/x6A") (some true)).valid = false := by decide

example : (validate_ark sampleState (str "ark:12345/x6A") (some true)).warnings = none := by decide

-- minting scouting
example :
    (parse_ark (mint_ark (str "12345") (str "x6") (str "np1wh8k") true)).map Ark.blade =
      some (str "np1wh8k" ++ [calculate_check_character (str "x6np1wh8k")]) := by decide

example :
    (parse_ark (mint_ark (str "12345") (str "x6") (str "np1wh8k") false)).map Ark.shoulder =
      some (str "x6") := by decide

example : parse_ark (mint_ark (str "zark:") (str "x6") [] false) = none := by decide

end ArkService

namespace ArkService

-- resolver scouting, mirroring the source's tests
example :
    (parse_ark (str "ark:12345/x6np1wh8k/page2.pdf")).map
        (mkShoulder "https://example.org/resolve?id=$\x7bpid\x7d").resolve =
      some (str "https://example.org/resolve?id=ark:12345/x6np1wh8k/page2.pdf") := by decide

example :
    (parse_ark (str "ark:12345/x6np1wh8k/page2.pdf")).map
        (mkShoulder "https://example.org/$\x7bcontent\x7d").resolve =
      some (str "https://example.org/12345/x6np1wh8k/page2.pdf") := by decide

example :
    (parse_ark (str "ark:12345/x6np1wh8k/page2.pdf")).map
        (mkShoulder "https://example.org/$\x7bprefix\x7d/items").resolve =
      some (str "https://example.org/12345/items") := by decide

example :
    (parse_ark (str "ark:12345/x6np1wh8k/page2.pdf")).map
        (mkShoulder "https://example.org/objects/$\x7bvalue\x7d").resolve =
      some (str "https://example.org/objects/x6np1wh8k/page2.pdf") := by decide

example :
    (parse_ark (str "ark:12345/x6np1wh8k?info")).map
        (mkShoulder "https://example.org/items/$\x7bvalue\x7d").resolve =
      some (str "https://example.org/items/x6np1wh8k?info") := by decide

example :
    (parse_ark (str "ark:12345/x6np1wh8k?info")).map
        (mkShoulder "https://example.org/").resolve =
      some (str "https://example.org/ark:12345/x6np1wh8k?info") := by decide

example :
    (parse_ark (str "ark:99999/fk4test123/metadata.xml")).map
        (mkShoulder "https://storage.example.org/$\x7bprefix\x7d/items/$\x7bvalue\x7d").resolve =
      some (str "https://storage.example.org/99999/items/fk4test123/metadata.xml") := by decide

-- route-pattern validation scouting, mirroring the source's tests
example : (mkShoulder "https://example.org/").validate_route_pattern = .ok () := by decide

example :
    (mkShoulder "https://example.org/$\x7bvalue\x7d").validate_route_pattern = .ok () := by decide

example :
    (mkShoulder "https://api.example.org/resolve?id=$\x7bpid\x7d").validate_route_pattern =
      .ok () := by decide

example : (mkShoulder "javascript:alert(1)").validate_route_pattern ≠ .ok () := by decide

example : (mkShoulder "ftp://example.org/").validate_route_pattern ≠ .ok () := by decide

example : (mkShoulder "$\x7bscheme\x7d://example.org/").validate_route_pattern ≠ .ok () := by
  decide

example : (mkShoulder "ht$\x7bvalue\x7d://example.org/").validate_route_pattern ≠ .ok () := by
  decide

example :
    (mkShoulder "https://$\x7bvalue\x7d.example.org/").validate_route_pattern ≠ .ok () := by
  decide

example : (mkShoulder "https://example.$\x7bcontent\x7d/").validate_route_pattern ≠ .ok () := by
  decide

example : (mkShoulder "https://example.org/\t").validate_route_pattern ≠ .ok () := by decide

example : (mkShoulder "not-a-url").validate_route_pattern ≠ .ok () := by decide

example : (mkShoulder "https://").validate_route_pattern ≠ .ok () := by decide

example : (mkShoulder "").validate_route_pattern ≠ .ok () := by decide

-- C1 scouting: the loophole pattern passes load-time validation …
example : (mkShoulder "https:\x7bvalue\x7d").validate_route_pattern = .ok () := by decide

-- … and a blade with a space then reaches the inert about:blank branch
example :
    (parse_ark (str "ark:12345/x6 t")).map
        (fun a => schemeOf ((mkShoulder "https:\x7bvalue\x7d").resolve a)) =
      some (some (str "about")) := by decide

example :
    (parse_ark (str "ark:12345/x6 t")).map (mkShoulder "https:\x7bvalue\x7d").apply_template =
      some (str "https:x6 t") := by decide

end ArkService

namespace ArkService

/-! ## General lemmas about the embedding's primitives -/

theorem listIsPfx_append_self (p t : List Char) : listIsPfx p (p ++ t) = true := by
  induction p with
  | nil => rfl
  | cons c cs ih => simp [listIsPfx, ih]

theorem replaceAllGo_of_not_contains (pat rep : List Char) :
    ∀ (n : Nat) (l : List Char), l.length ≤ n → containsSub pat l = false →
      replaceAllGo pat rep n l = l := by
  intro n
  induction n with
  | zero => intro l _ _; cases l <;> rfl
  | succ n ih =>
    intro l hlen hc
    cases l with
    | nil => rfl
    | cons c cs =>
      have hner : containsSub pat (c :: cs) = false := hc
      simp only [containsSub, Bool.or_eq_false_iff] at hner
      rcases hner with ⟨h1, h2⟩
      simp only [replaceAllGo]
      rw [if_neg (fun hcon => by rw [h1] at hcon; exact Bool.false_ne_true hcon.2)]
      have hlen' : cs.length ≤ n := Nat.le_of_succ_le_succ (by simpa using hlen)
      rw [ih cs hlen' h2]

theorem replaceAll_of_not_contains (pat rep l : List Char)
    (h : containsSub pat l = false) : replaceAll pat rep l = l :=
  replaceAllGo_of_not_contains pat rep l.length l (Nat.le_refl _) h

theorem contains_eq_false_of_forall_ne {l : List Char} {a : Char}
    (h : ∀ c ∈ l, c ≠ a) : l.contains a = false := by
  induction l with
  | nil => rfl
  | cons c cs ih =>
    simp only [List.contains_cons, Bool.or_eq_false_iff]
    exact ⟨beq_eq_false_iff_ne.mpr (Ne.symm (h c (by simp))),
      ih (fun x hx => h x (by simp [hx]))⟩

theorem takeWhile_eq_self_of {p : Char → Bool} {l : List Char}
    (h : ∀ c ∈ l, p c = true) : l.takeWhile p = l := by
  induction l with
  | nil => rfl
  | cons c cs ih =>
    have hc := h c (by simp)
    simp [List.takeWhile_cons, hc, ih (fun x hx => h x (by simp [hx]))]

theorem betanumericAt_mem (n : Nat) : betanumericAt n ∈ BETANUMERIC := by
  unfold betanumericAt
  exact List.get_mem _ _ _

theorem betanumeric_utf8Size : ∀ c ∈ BETANUMERIC, c.utf8Size = 1 := by decide

theorem checkTotal_eq_enumFrom (bs : List Nat) :
    ∀ pos, checkTotal pos bs =
      ((List.enumFrom pos bs).map (fun p => (p.1 + 1) * betaOrdinal p.2)).sum := by
  induction bs with
  | nil => intro pos; rfl
  | cons b rest ih =>
    intro pos
    simp [checkTotal, List.enumFrom, ih (pos + 1)]

/-! ## C3: the `original` field of a parsed ARK -/

/-- C3 (counterexample): for the input `ark:1/x6?x=ark:/9`, which does not
carry the alternate `ark:/` prefix form, the claim predicts `original` equal
to the input; the code also collapses the interior `ark:/` occurrence inside
the query string. -/
theorem C3_counterexample :
    (parse_ark (str "ark:1/x6?x=ark:/9")).map Ark.original =
        some (str "ark:1/x6?x=ark:9") ∧
      listIsPfx (str "ark:/") (str "ark:1/x6?x=ark:/9") = false ∧
      str "ark:1/x6?x=ark:9" ≠ str "ark:1/x6?x=ark:/9" :=
  ⟨by decide, by decide, by decide⟩

/-- C3 (amended): for every accepted input, `original` is the input with
every occurrence of `ark:/` (prefix or interior) replaced by `ark:`. -/
theorem C3_original_collapses_all (s : List Char) (a : Ark)
    (h : parse_ark s = some a) :
    a.original = replaceAll (str "ark:/") (str "ark:") s := by
  simp only [parse_ark] at h
  split at h
  · split at h
    · exact absurd h (by simp)
    · split at h
      · exact absurd h (by simp)
      · rw [← Option.some.inj h]
  · exact absurd h (by simp)

/-- C3 (witness): the amended theorem applied at a concrete accepted input. -/
theorem C3_original_witness :
    ∃ a, parse_ark (str "ark:1/x6?x=ark:/9") = some a ∧
      a.original = replaceAll (str "ark:/") (str "ark:") (str "ark:1/x6?x=ark:/9") := by
  refine ⟨_, rfl, ?_⟩
  exact C3_original_collapses_all (str "ark:1/x6?x=ark:/9") _ rfl

/-! ## C4: totality of `validate_check_character` -/

/-- C4: `validate_check_character` evaluated at the single-character input
`é`: its UTF-8 length is 2, so the length guard passes and `split_at(len - 1)`
lands inside the two-byte character — the modelled panic (`none`), where the
claim and the function's own documentation promise a boolean. -/
theorem C4_validate_multibyte_panics :
    validate_check_character (str "é") = none ∧ utf8Len (str "é") = 2 :=
  ⟨by decide, by decide⟩

/-! ## C5: the checksum formula -/

/-- C5 (counterexample): on `é1` the code iterates UTF-8 bytes (the two bytes
of `é` occupy positions 1 and 2, the digit position 3), while the claim's
per-character formula puts the digit at position 2: the results differ. -/
theorem C5_counterexample :
    calculate_check_character (str "é1") = '3' ∧
      claimCheckCharacterChars (str "é1") = '2' ∧ ('3' : Char) ≠ '2' :=
  ⟨by decide, by decide, by decide⟩

/-- C5 (amended): the checksum is the claimed positional formula taken over
the UTF-8 byte sequence of the input (positions 1-index the bytes, each
byte's ordinal is its case-folded index in the alphabet, 0 outside it); in
particular the worked example yields `q`. -/
theorem C5_checksum_bytes :
    (∀ s, calculate_check_character s = specCheckCharacterBytes s) ∧
      calculate_check_character (str "13030/xf93gt2") = 'q' := by
  constructor
  · intro s
    unfold calculate_check_character specCheckCharacterBytes
    rw [checkTotal_eq_enumFrom]
    rfl
  · decide

/-! ## C6: mint-validate round trip of the checksum -/

/-- C6 (counterexample): for the empty string (admitted by the claim's
quantifier) the appended checksum is `0`, and validation of the one-character
string `0` returns false under the length guard. -/
theorem C6_counterexample :
    calculate_check_character [] = '0' ∧
      validate_check_character ([] ++ [calculate_check_character []]) = some false :=
  ⟨by decide, by decide⟩

/-- C6 (amended): for every non-empty string over the betanumeric alphabet,
appending the computed check character yields a string that validates. -/
theorem C6_roundtrip_nonempty (s : List Char) (h1 : s ≠ [])
    (h2 : ∀ c ∈ s, c ∈ BETANUMERIC) :
    validate_check_character (s ++ [calculate_check_character s]) = some true := by
  have hcmem : calculate_check_character s ∈ BETANUMERIC := betanumericAt_mem _
  have hsize : (calculate_check_character s).utf8Size = 1 :=
    betanumeric_utf8Size _ hcmem
  have hone : ∀ x : Char, 1 ≤ x.utf8Size := fun x => Char.utf8Size_pos x
  have hlen : 2 ≤ utf8Len (s ++ [calculate_check_character s]) := by
    rcases s with _ | ⟨x, xs⟩
    · exact absurd rfl h1
    · have := hone x
      simp only [utf8Len, List.cons_append, List.map_cons, List.sum_cons,
        List.map_append, List.sum_append, List.map_cons, List.map_nil,
        List.sum_cons, List.sum_nil, hsize]
      omega
  unfold validate_check_character
  rw [if_neg (by omega)]
  rw [List.getLast?_concat, List.dropLast_concat]
  simp [hsize]

/-- C6 (witness): the amended theorem at `bcd`, whose check character is `b`. -/
theorem C6_roundtrip_witness :
    str "bcd" ≠ [] ∧ (∀ c ∈ str "bcd", c ∈ BETANUMERIC) ∧
      validate_check_character (str "bcd" ++ [calculate_check_character (str "bcd")]) =
        some true :=
  ⟨by decide, by decide, C6_roundtrip_nonempty (str "bcd") (by decide) (by decide)⟩

/-! ## C9: short blades under check-character validation -/

/-- C9 (counterexample): the state of the source's validation tests, input
`ark:12345/x6A` with the explicit check hint: check validation is in effect,
the parsed blade `A` has length 1, the shoulder `x6` is registered, the NAAN
matches — yet the result is invalid with no warnings, because the
betanumeric-character gate rejects the upper-case blade before the
blade-length branch is reached. -/
theorem C9_counterexample :
    (parse_ark (str "ark:12345/x6A")).map Ark.blade = some (str "A") ∧
      utf8Len (str "A") ≤ 1 ∧
      (parse_ark (str "ark:12345/x6A")).map Ark.shoulder = some (str "x6") ∧
      (lookupShoulder sampleState.shoulders (str "x6")).isSome = true ∧
      (parse_ark (str "ark:12345/x6A")).map Ark.naan = some sampleState.naan ∧
      (validate_ark sampleState (str "ark:12345/x6A") (some true)).valid = false ∧
      (validate_ark sampleState (str "ark:12345/x6A") (some true)).warnings = none :=
  ⟨by decide, by decide, by decide, by decide, by decide, by decide, by decide⟩

/-- C9 (amended): with the additional hypothesis that shoulder and blade are
betanumeric (the gate the claim omitted), a registered shoulder, matching
NAAN, effective check validation and a blade of at most one byte yield a
valid result, no check-character verdict, and the blade-too-short warning. -/
theorem C9_blade_too_short_warns (st : AppState) (s : List Char) (hint : Option Bool)
    (a : Ark) (cfg : Shoulder)
    (hp : parse_ark s = some a)
    (hbs : is_betanumeric a.shoulder = true)
    (hbb : is_betanumeric a.blade = true)
    (hreg : lookupShoulder st.shoulders a.shoulder = some cfg)
    (heff : (match hint with | some b => b | none => cfg.uses_check_character) = true)
    (hshort : utf8Len a.blade ≤ 1)
    (hnaan : a.naan = st.naan) :
    (validate_ark st s hint).valid = true ∧
      (validate_ark st s hint).check_character_valid = none ∧
      (validate_ark st s hint).warnings =
        some [str "Blade too short for check character validation"] := by
  have hlt : (1 < utf8Len a.blade) = False := eq_false (Nat.not_lt.mpr hshort)
  cases hint with
  | some b =>
    have hb : b = true := by simpa using heff
    subst hb
    refine ⟨?_, ?_, ?_⟩ <;> simp [validate_ark, hp, hbs, hbb, hreg, hnaan, hlt]
  | none =>
    have hu : cfg.uses_check_character = true := by simpa using heff
    refine ⟨?_, ?_, ?_⟩ <;> simp [validate_ark, hp, hbs, hbb, hreg, hnaan, hlt, hu]

/-- C9 (witness): the amended theorem at the source's own short-blade test
input `ark:/12345/x6b`. -/
theorem C9_blade_too_short_witness :
    (validate_ark sampleState (str "ark:/12345/x6b") (some true)).valid = true ∧
      (validate_ark sampleState (str "ark:/12345/x6b") (some true)).check_character_valid =
        none ∧
      (validate_ark sampleState (str "ark:/12345/x6b") (some true)).warnings =
        some [str "Blade too short for check character validation"] :=
  C9_blade_too_short_warns sampleState (str "ark:/12345/x6b") (some true)
    { original := str "ark:12345/x6b", naan := str "12345", shoulder := str "x6",
      blade := str "b", qualifier := [], normalized_ark := str "ark:12345/x6b" }
    { route_pattern := str "https://example.org/$\x7bvalue\x7d",
      project_name := str "Test Project" }
    (by decide) (by decide) (by decide) (by decide) (by decide) (by decide) (by decide)

/-! ## C10: what a valid verdict guarantees -/

/-- C10: whenever `validate_ark` reports `valid = true`, the input parsed,
the NAAN matches the configured NAAN, the shoulder is registered, and both
shoulder and blade are betanumeric. -/
theorem C10_valid_implies_wellformed (st : AppState) (s : List Char) (hint : Option Bool)
    (h : (validate_ark st s hint).valid = true) :
    ∃ a, parse_ark s = some a ∧ a.naan = st.naan ∧
      (lookupShoulder st.shoulders a.shoulder).isSome = true ∧
      is_betanumeric a.shoulder = true ∧ is_betanumeric a.blade = true := by
  simp only [validate_ark] at h
  split at h
  · simp [ValidationResult.parse_error] at h
  · rename_i a hp
    refine ⟨a, hp, ?_⟩
    split at h
    · simp at h
    · rename_i hbeta
      have hbeta' : is_betanumeric a.shoulder = true ∧ is_betanumeric a.blade = true := by
        simpa using hbeta
      split at h
      · simp at h
      · simp only [Bool.and_eq_true, beq_iff_eq] at h
        exact ⟨h.1.1, h.2, hbeta'.1, hbeta'.2⟩

/-- C10 (witness): the guarantee instantiated where the verdict is valid. -/
theorem C10_valid_witness :
    ∃ a, parse_ark (str "ark:/12345/b3nmkd123") = some a ∧
      a.naan = sampleState.naan ∧
      (lookupShoulder sampleState.shoulders a.shoulder).isSome = true ∧
      is_betanumeric a.shoulder = true ∧ is_betanumeric a.blade = true :=
  C10_valid_implies_wellformed sampleState (str "ark:/12345/b3nmkd123") none (by decide)

/-! ## C2: where the blade ends -/

/-- C2 (counterexample): in `ark:1/x6np?a/b` a `?` follows the shoulder
before any `/`; the claim says the blade ends at that `?` (blade `np`), but
the code prefers the first `/` anywhere, yielding blade `np?a` and qualifier
`b`. -/
theorem C2_counterexample :
    (parse_ark (str "ark:1/x6np?a/b")).map Ark.blade = some (str "np?a") ∧
      (parse_ark (str "ark:1/x6np?a/b")).map Ark.qualifier = some (str "b") ∧
      str "np?a" ≠ str "np" :=
  ⟨by decide, by decide, by decide⟩

/-- C2 (amended): the blade ends at the first `/` whenever one occurs
anywhere after the shoulder, even when a `?` occurs earlier; only when no `/`
occurs does it end at the first `?`; a `/` separator is consumed and a `?`
separator is retained as the first character of the qualifier. -/
theorem C2_blade_split_priority (s : List Char) (a : Ark) (h : parse_ark s = some a) :
    ∃ hd rest,
      ((replaceAll (str "ark:/") (str "ark:") s).drop 4).dropWhile (fun c => c ≠ '/') =
          hd :: rest ∧
        ((rest.drop a.shoulder.length).contains '/' = true →
          a.blade = (rest.drop a.shoulder.length).takeWhile (fun c => c ≠ '/') ∧
            a.qualifier =
              ((rest.drop a.shoulder.length).dropWhile (fun c => c ≠ '/')).tail) ∧
        ((rest.drop a.shoulder.length).contains '/' = false →
          (rest.drop a.shoulder.length).contains '?' = true →
          a.blade = (rest.drop a.shoulder.length).takeWhile (fun c => c ≠ '?') ∧
            a.qualifier = (rest.drop a.shoulder.length).dropWhile (fun c => c ≠ '?')) ∧
        ((rest.drop a.shoulder.length).contains '/' = false →
          (rest.drop a.shoulder.length).contains '?' = false →
          a.blade = rest.drop a.shoulder.length ∧ a.qualifier = []) := by
  simp only [parse_ark] at h
  split at h
  · split at h
    · exact absurd h (by simp)
    · rename_i hd rest hdw
      split at h
      · exact absurd h (by simp)
      · rename_i shoulder hsh
        have ha := Option.some.inj h
        refine ⟨hd, rest, hdw, ?_, ?_, ?_⟩
        · intro hsl
          rw [← ha] at hsl ⊢
          simp only at hsl ⊢
          simp at hsl
          simp [hsl]
        · intro hsl hq
          rw [← ha] at hsl hq ⊢
          simp only at hsl hq ⊢
          simp at hsl hq
          simp [hsl, hq]
        · intro hsl hq
          rw [← ha] at hsl hq ⊢
          simp only at hsl hq ⊢
          simp at hsl hq
          simp [hsl, hq]
  · exact absurd h (by simp)

/-- C2 (witness): the amended split at the counterexample input. -/
theorem C2_blade_split_witness :
    ∃ hd rest,
      ((replaceAll (str "ark:/") (str "ark:") (str "ark:1/x6np?a/b")).drop 4).dropWhile
          (fun c => c ≠ '/') = hd :: rest ∧
        ((rest.drop c2WitnessArk.shoulder.length).contains '/' = true →
          c2WitnessArk.blade =
              (rest.drop c2WitnessArk.shoulder.length).takeWhile (fun c => c ≠ '/') ∧
            c2WitnessArk.qualifier =
              ((rest.drop c2WitnessArk.shoulder.length).dropWhile (fun c => c ≠ '/')).tail) ∧
        ((rest.drop c2WitnessArk.shoulder.length).contains '/' = false →
          (rest.drop c2WitnessArk.shoulder.length).contains '?' = true →
          c2WitnessArk.blade =
              (rest.drop c2WitnessArk.shoulder.length).takeWhile (fun c => c ≠ '?') ∧
            c2WitnessArk.qualifier =
              (rest.drop c2WitnessArk.shoulder.length).dropWhile (fun c => c ≠ '?')) ∧
        ((rest.drop c2WitnessArk.shoulder.length).contains '/' = false →
          (rest.drop c2WitnessArk.shoulder.length).contains '?' = false →
          c2WitnessArk.blade = rest.drop c2WitnessArk.shoulder.length ∧
            c2WitnessArk.qualifier = []) :=
  C2_blade_split_priority (str "ark:1/x6np?a/b") c2WitnessArk (by decide)

/-! ## C8: mint-then-parse -/

theorem str_slash : str "/" = ['/'] := rfl

theorem extract_shoulder_spec (pre rest : List Char) (d : Char)
    (hpre : ∀ c ∈ pre, isAsciiDigit c = false) (hd : isAsciiDigit d = true) :
    extract_shoulder (pre ++ d :: rest) = some (pre ++ [d]) := by
  induction pre with
  | nil => simp [extract_shoulder, hd]
  | cons c cs ih =>
    have hc : isAsciiDigit c = false := hpre c (by simp)
    simp [extract_shoulder, hc, ih (fun x hx => hpre x (by simp [hx]))]

theorem betanumeric_no_seps : ∀ x ∈ BETANUMERIC, x ≠ '?' ∧ x ≠ '/' := by decide

theorem parse_ark_of_structured (naan pre bladeF : List Char) (d : Char)
    (hns : ∀ c ∈ naan, c ≠ '/')
    (hpre : ∀ c ∈ pre, isAsciiDigit c = false ∧ c ≠ '/' ∧ c ≠ '?')
    (hd : isAsciiDigit d = true)
    (hbl : ∀ c ∈ bladeF, c ∈ BETANUMERIC)
    (hno : containsSub (str "ark:/")
      (str "ark:" ++ (naan ++ '/' :: (pre ++ d :: bladeF))) = false) :
    parse_ark (str "ark:" ++ (naan ++ '/' :: (pre ++ d :: bladeF))) =
      some { original := str "ark:" ++ (naan ++ '/' :: (pre ++ d :: bladeF)),
             naan := naan, shoulder := pre ++ [d], blade := bladeF, qualifier := [],
             normalized_ark :=
               normalize_ark_string (str "ark:" ++ (naan ++ '/' :: (pre ++ d :: bladeF))) } := by
  have hdq : d ≠ '?' := fun he => by rw [he] at hd; exact absurd hd (by decide)
  have hcol := replaceAll_of_not_contains (str "ark:/") (str "ark:") _ hno
  have h1 : List.drop 4 (str "ark:" ++ (naan ++ '/' :: (pre ++ d :: bladeF))) =
      naan ++ '/' :: (pre ++ d :: bladeF) := List.drop_left' (by decide)
  have hnspred : ∀ c ∈ naan, (fun c => decide (c ≠ '/')) c = true :=
    fun c hc => by simpa using hns c hc
  have h2 : (naan ++ '/' :: (pre ++ d :: bladeF)).takeWhile (fun c => decide (c ≠ '/')) =
      naan := by
    rw [List.takeWhile_append_of_pos hnspred]
    simp
  have h3 : (naan ++ '/' :: (pre ++ d :: bladeF)).dropWhile (fun c => decide (c ≠ '/')) =
      '/' :: (pre ++ d :: bladeF) := by
    rw [List.dropWhile_append_of_pos hnspred]
    simp
  have hSq : ∀ c ∈ pre ++ d :: bladeF, (fun c => decide (c ≠ '?')) c = true := by
    intro c hc
    simp only [List.mem_append, List.mem_cons] at hc
    rcases hc with h | h | h
    · simpa using (hpre c h).2.2
    · rw [h]; simpa using hdq
    · simpa using (betanumeric_no_seps c (hbl c h)).1
  have h4 : (pre ++ d :: bladeF).takeWhile (fun c => decide (c ≠ '?')) =
      pre ++ d :: bladeF := takeWhile_eq_self_of hSq
  have h5 : extract_shoulder (pre ++ d :: bladeF) = some (pre ++ [d]) :=
    extract_shoulder_spec pre bladeF d (fun c hc => (hpre c hc).1) hd
  have h6 : (pre ++ d :: bladeF).drop (pre ++ [d]).length = bladeF := by
    have hre : pre ++ d :: bladeF = (pre ++ [d]) ++ bladeF := by simp
    rw [hre, List.drop_left]
  have h7 : bladeF.contains '/' = false :=
    contains_eq_false_of_forall_ne (fun c hc => (betanumeric_no_seps c (hbl c hc)).2)
  have h8 : bladeF.contains '?' = false :=
    contains_eq_false_of_forall_ne (fun c hc => (betanumeric_no_seps c (hbl c hc)).1)
  simp only [parse_ark, hcol, listIsPfx_append_self, if_true, h1, h2, h3, h4, h5, h6,
    h7, h8, Bool.false_eq_true, if_false]

/-- C8 (counterexample): `mint_ark` with the non-empty, slash-free NAAN
`zark:`, the shoulder `x6` (non-digits then one digit), blade length 0 and no
check character produces `ark:zark:/x6`, whose `zark:/` substring is
collapsed by the parser: parsing fails where the claim requires success. -/
theorem C8_counterexample :
    str "zark:" ≠ [] ∧ (∀ c ∈ str "zark:", c ≠ '/') ∧
      (∀ c ∈ str "x", isAsciiDigit c = false) ∧ isAsciiDigit '6' = true ∧
      str "x6" = str "x" ++ ['6'] ∧
      mint_ark (str "zark:") (str "x6") [] false = str "ark:zark:/x6" ∧
      parse_ark (mint_ark (str "zark:") (str "x6") [] false) = none :=
  ⟨by decide, by decide, by decide, by decide, by decide, by decide, by decide⟩

/-- C8 (amended): mint-then-parse round-trips provided additionally that the
shoulder's non-digit characters exclude `/` and `?` and that the minted
string contains no occurrence of the substring `ark:/` (which rules out, for
example, a NAAN ending in `ark:`); the parsed shoulder is the given shoulder,
the parsed NAAN the given NAAN, and the blade length is the requested length
plus one when a check character is appended. -/
theorem C8_mint_parse_guarded (naan pre blade : List Char) (d : Char) (usesCheck : Bool)
    (hn : naan ≠ [])
    (hns : ∀ c ∈ naan, c ≠ '/')
    (hpre : ∀ c ∈ pre, isAsciiDigit c = false ∧ c ≠ '/' ∧ c ≠ '?')
    (hd : isAsciiDigit d = true)
    (hblade : ∀ c ∈ blade, c ∈ BETANUMERIC)
    (hno : containsSub (str "ark:/") (mint_ark naan (pre ++ [d]) blade usesCheck) = false) :
    ∃ a, parse_ark (mint_ark naan (pre ++ [d]) blade usesCheck) = some a ∧
      a.shoulder = pre ++ [d] ∧ a.naan = naan ∧ a.qualifier = [] ∧
      a.blade.length = blade.length + (if usesCheck then 1 else 0) := by
  cases usesCheck with
  | false =>
    have hshape : mint_ark naan (pre ++ [d]) blade false =
        str "ark:" ++ (naan ++ '/' :: (pre ++ d :: blade)) := by
      simp [mint_ark, str_slash, List.append_assoc]
    rw [hshape] at hno ⊢
    exact ⟨_, parse_ark_of_structured naan pre blade d hns hpre hd hblade hno,
      rfl, rfl, rfl, by simp⟩
  | true =>
    have hshape : mint_ark naan (pre ++ [d]) blade true =
        str "ark:" ++ (naan ++ '/' ::
          (pre ++ d :: (blade ++ [calculate_check_character ((pre ++ [d]) ++ blade)]))) := by
      simp [mint_ark, str_slash, List.append_assoc]
    have hbl2 : ∀ c ∈ blade ++ [calculate_check_character ((pre ++ [d]) ++ blade)],
        c ∈ BETANUMERIC := by
      intro c hc
      rcases List.mem_append.mp hc with h | h
      · exact hblade c h
      · simp only [List.mem_singleton] at h
        rw [h]
        exact betanumericAt_mem _
    rw [hshape] at hno ⊢
    exact ⟨_, parse_ark_of_structured naan pre _ d hns hpre hd hbl2 hno,
      rfl, rfl, rfl, by simp⟩

/-- C8 (witness): the amended round trip at NAAN `12345`, shoulder `x6`,
blade `np1wh8k`, check character on. -/
theorem C8_mint_parse_witness :
    ∃ a, parse_ark (mint_ark (str "12345") (str "x" ++ ['6']) (str "np1wh8k") true) = some a ∧
      a.shoulder = str "x" ++ ['6'] ∧ a.naan = str "12345" ∧ a.qualifier = [] ∧
      a.blade.length = (str "np1wh8k").length + (if true then 1 else 0) :=
  C8_mint_parse_guarded (str "12345") (str "x") (str "np1wh8k") '6' true
    (by decide) (by decide) (by decide) (by decide) (by decide) (by decide)

/-! ## C1: the scheme of what `resolve` returns -/

theorem toNat_ofNat_valid (n : Nat) (h : n < 0xD800) : (Char.ofNat n).toNat = n := by
  rw [Char.ofNat, dif_pos (Or.inl h)]
  simp only [Char.ofNatAux, Char.toNat, UInt32.ofNat', UInt32.toNat, BitVec.toNat_ofNatLt]

theorem asciiLower_idem (c : Char) : asciiLower (asciiLower c) = asciiLower c := by
  unfold asciiLower
  split
  · rename_i h
    have hv : (Char.ofNat (c.toNat + 32)).toNat = c.toNat + 32 :=
      toNat_ofNat_valid _ (by omega)
    rw [if_neg (by rw [hv]; omega)]
  · rfl

theorem isSchemeChar_asciiLower (c : Char) (h : isSchemeChar c = true) :
    isSchemeChar (asciiLower c) = true := by
  unfold asciiLower
  split
  · rename_i hc
    have hv : (Char.ofNat (c.toNat + 32)).toNat = c.toNat + 32 :=
      toNat_ofNat_valid _ (by omega)
    have halpha : isAsciiAlpha (Char.ofNat (c.toNat + 32)) = true := by
      simp only [isAsciiAlpha, hv, decide_eq_true_eq]
      omega
    simp [isSchemeChar, halpha]
  · exact h

theorem isAsciiAlpha_asciiLower (c : Char) (h : isAsciiAlpha c = true) :
    isAsciiAlpha (asciiLower c) = true := by
  unfold asciiLower
  split
  · rename_i hc
    have hv : (Char.ofNat (c.toNat + 32)).toNat = c.toNat + 32 :=
      toNat_ofNat_valid _ (by omega)
    simp only [isAsciiAlpha, hv, decide_eq_true_eq]
    omega
  · exact h

theorem schemeOf_spec (l s : List Char) (h : schemeOf l = some s) :
    s ≠ [] ∧ (∀ c ∈ s, isSchemeChar c = true) ∧
      isAsciiAlpha (s.headD '0') = true ∧ s.map asciiLower = s := by
  simp only [schemeOf] at h
  split at h
  · rename_i hcond
    obtain ⟨hne, hget, halpha⟩ := hcond
    have hs := Option.some.inj h
    subst hs
    refine ⟨by simpa using hne, ?_, ?_, ?_⟩
    · intro c hc
      obtain ⟨x, hx, hxe⟩ := List.mem_map.mp hc
      rw [← hxe]
      exact isSchemeChar_asciiLower x (List.mem_takeWhile_imp hx)
    · rcases hp : l.takeWhile isSchemeChar with _ | ⟨x, xs⟩
      · exact absurd hp hne
      · simp only [List.map_cons, List.headD_cons]
        apply isAsciiAlpha_asciiLower
        have h2 : isAsciiAlpha ((x :: xs).headD '0') = true := hp ▸ halpha
        simpa using h2
    · rw [List.map_map]
      apply List.map_congr_left
      intro x _
      exact asciiLower_idem x
  · exact absurd h (by simp)

theorem schemeOf_mk (s rest : List Char) (hne : s ≠ [])
    (hall : ∀ c ∈ s, isSchemeChar c = true)
    (halpha : isAsciiAlpha (s.headD '0') = true)
    (hidem : s.map asciiLower = s) :
    schemeOf (s ++ ':' :: rest) = some s := by
  have htw : (s ++ ':' :: rest).takeWhile isSchemeChar = s := by
    rw [List.takeWhile_append_of_pos hall]
    simp [List.takeWhile_cons]
    decide
  unfold schemeOf
  rw [htw]
  rw [if_pos]
  · rw [hidem]
  · refine ⟨hne, ?_, ?_⟩
    · rw [List.get?_append_right (Nat.le_refl _)]
      simp
    · exact halpha

theorem urlParse_ok_spec (l : List Char) (u : Url) (h : urlParse l = .ok u) :
    urlToString u = u.scheme ++ ':' :: u.rest ∧
      u.scheme ≠ [] ∧ (∀ c ∈ u.scheme, isSchemeChar c = true) ∧
      isAsciiAlpha (u.scheme.headD '0') = true ∧ u.scheme.map asciiLower = u.scheme := by
  simp only [urlParse] at h
  split at h
  · exact absurd h (by simp)
  · rename_i scheme hsch
    have hspec := schemeOf_spec _ _ hsch
    split at h
    · split at h
      · exact absurd h (by simp)
      · split at h
        · exact absurd h (by simp)
        · split at h
          · exact absurd h (by simp)
          · have hu := Except.ok.inj h
            rw [← hu]
            exact ⟨rfl, hspec.1, hspec.2.1, hspec.2.2.1, hspec.2.2.2⟩
    · split at h
      · split at h
        · exact absurd h (by simp)
        · have hu := Except.ok.inj h
          rw [← hu]
          exact ⟨rfl, hspec.1, hspec.2.1, hspec.2.2.1, hspec.2.2.2⟩
      · have hu := Except.ok.inj h
        rw [← hu]
        exact ⟨rfl, hspec.1, hspec.2.1, hspec.2.2.1, hspec.2.2.2⟩

theorem urlParse_scheme_roundtrip (l : List Char) (u : Url) (h : urlParse l = .ok u) :
    schemeOf (urlToString u) = some u.scheme := by
  obtain ⟨hts, hne, hall, halpha, hidem⟩ := urlParse_ok_spec l u h
  rw [hts]
  exact schemeOf_mk _ _ hne hall halpha hidem

theorem validate_redirect_url_ok (t : List Char) (u : Url)
    (h : validate_redirect_url t = .ok u) :
    urlParse t = .ok u ∧ (u.scheme = str "http" ∨ u.scheme = str "https") := by
  simp only [validate_redirect_url] at h
  split at h
  · exact absurd h (by simp)
  · rename_i parsed hp
    split at h
    · rename_i hsch
      have hu := Except.ok.inj h
      rw [← hu]
      exact ⟨hp, hsch⟩
    · exact absurd h (by simp)

/-- C1 (counterexample): the route pattern `https:{value}` passes load-time
validation (no `://`, so both the scheme-position and host-position checks
are skipped), yet for the accepted ARK `ark:12345/x6 t` the substituted URL
`https:x6 t` carries a space in host position, final-URL validation fails,
and `resolve` returns the inert `about:blank#error=` value — whose scheme is
`about`, not http or https. -/
theorem C1_counterexample :
    (mkShoulder "https:\x7bvalue\x7d").validate_route_pattern = .ok () ∧
      (parse_ark (str "ark:12345/x6 t")).map
          (fun a => schemeOf ((mkShoulder "https:\x7bvalue\x7d").resolve a)) =
        some (some (str "about")) ∧
      str "about" ≠ str "http" ∧ str "about" ≠ str "https" :=
  ⟨by decide, by decide, by decide, by decide⟩

/-- C1 (amended): for every shoulder configuration and parsed ARK, the string
`resolve` returns either has scheme http or https, or is the deterministic
inert replacement, a string beginning `about:blank#error=`. -/
theorem C1_resolve_scheme_or_inert (sh : Shoulder) (a : Ark) :
    (schemeOf (sh.resolve a) = some (str "http") ∨
        schemeOf (sh.resolve a) = some (str "https")) ∨
      listIsPfx (str "about:blank#error=") (sh.resolve a) = true := by
  rcases hv : validate_redirect_url (sh.apply_template a) with e | u
  · right
    simp only [Shoulder.resolve, hv]
    exact listIsPfx_append_self _ _
  · left
    obtain ⟨hp, hsch⟩ := validate_redirect_url_ok _ _ hv
    have hrt := urlParse_scheme_roundtrip _ _ hp
    simp only [Shoulder.resolve, hv]
    rcases hsch with h | h
    · left; rw [hrt, h]
    · right; rw [hrt, h]

/-! ## C7: the equivalence-class property of normalization -/

theorem replaceAllGo_single (c : Char) :
    ∀ (n : Nat) (l : List Char), l.length ≤ n →
      replaceAllGo [c] [] n l = l.filter (fun x => x ≠ c) := by
  intro n
  induction n with
  | zero => intro l h; simp at h; simp [h, replaceAllGo]
  | succ n ih =>
    intro l hlen
    cases l with
    | nil => rfl
    | cons x xs =>
      have hlen' : xs.length ≤ n := Nat.le_of_succ_le_succ (by simpa using hlen)
      by_cases hx : x = c
      · subst hx
        simp only [replaceAllGo, listIsPfx]
        rw [if_pos ⟨by simp, by simp [listIsPfx]⟩]
        simp [ih xs hlen']
      · simp only [replaceAllGo, listIsPfx]
        rw [if_neg (fun hcon => hx (Eq.symm (by simpa using hcon.2)))]
        simp [ih xs hlen', hx]

theorem replaceAll_single (c : Char) (l : List Char) :
    replaceAll [c] [] l = l.filter (fun x => x ≠ c) :=
  replaceAllGo_single c l.length l (Nat.le_refl _)

theorem junk_filter_chain (l : List Char) :
    replaceAll ['―'] [] (replaceAll ['—'] [] (replaceAll ['–'] []
      (replaceAll ['‒'] [] (replaceAll ['‑'] [] (replaceAll ['‐'] []
        (replaceAll ['-'] [] (l.filter (fun c => ¬ isWhitespaceChar c)))))))) =
    l.filter (fun c => !(isJunkChar c)) := by
  simp only [replaceAll_single, List.filter_filter]
  apply List.filter_congr
  intro c _
  simp only [isJunkChar, Bool.not_or, decide_not]
  cases isWhitespaceChar c <;>
    cases hd0 : (decide (c = '-')) <;>
      cases hd1 : (decide (c = '‐')) <;>
        cases hd2 : (decide (c = '‑')) <;>
          cases hd3 : (decide (c = '‒')) <;>
            cases hd4 : (decide (c = '–')) <;>
              cases hd5 : (decide (c = '—')) <;>
                cases hd6 : (decide (c = '―')) <;>
                  simp_all [decide_eq_true_eq]

theorem normalize_guarded (l : List Char)
    (hG : containsSub (str "ark:/") (stripQuery l) = false) :
    normalize_ark_string l = canonicalArk l := by
  simp only [normalize_ark_string, canonicalArk]
  rw [replaceAll_of_not_contains _ _ _ hG]
  rw [junk_filter_chain]

theorem takeWhile_append_of_mem_not {p : Char → Bool} {l1 l2 : List Char}
    (h : ∃ a ∈ l1, p a = false) : (l1 ++ l2).takeWhile p = l1.takeWhile p := by
  induction l1 with
  | nil => obtain ⟨a, ha, _⟩ := h; exact absurd ha (by simp)
  | cons x xs ih =>
    cases hpx : p x with
    | false => simp [List.takeWhile_cons, hpx]
    | true =>
      obtain ⟨a, ha, hpa⟩ := h
      have hxs : ∃ a ∈ xs, p a = false := by
        rcases List.mem_cons.mp ha with he | hm
        · rw [he] at hpa; rw [hpa] at hpx; exact absurd hpx (by simp)
        · exact ⟨a, hm, hpa⟩
      simp [List.takeWhile_cons, hpx, ih hxs]

theorem stripQuery_eq_self {x : List Char} (h : '?' ∉ x) : stripQuery x = x :=
  takeWhile_eq_self_of (fun c hc => by
    simp only [decide_eq_true_eq]
    intro he
    exact h (he ▸ hc))

theorem stripQuery_append_no {x y : List Char} (h : '?' ∉ x) :
    stripQuery (x ++ y) = x ++ stripQuery y := by
  unfold stripQuery
  rw [List.takeWhile_append_of_pos (fun c hc => by
    simp only [decide_eq_true_eq]
    intro he
    exact h (he ▸ hc))]

theorem stripQuery_append_mem {x y : List Char} (h : '?' ∈ x) :
    stripQuery (x ++ y) = stripQuery x :=
  takeWhile_append_of_mem_not ⟨'?', h, by simp⟩

theorem junk_ne_query {c : Char} (h : isJunkChar c = true) : c ≠ '?' := by
  intro he
  rw [he] at h
  exact absurd h (by decide)

theorem canonical_insertJunk (u v : List Char) (c : Char) (hc : isJunkChar c = true) :
    canonicalArk (u ++ c :: v) = canonicalArk (u ++ v) := by
  by_cases hq : '?' ∈ u
  · unfold canonicalArk
    rw [stripQuery_append_mem hq, stripQuery_append_mem hq]
  · have hcq : c ≠ '?' := junk_ne_query hc
    have h1 : stripQuery (u ++ c :: v) = u ++ c :: stripQuery v := by
      rw [stripQuery_append_no hq]
      simp [stripQuery, List.takeWhile_cons, hcq]
    have h2 : stripQuery (u ++ v) = u ++ stripQuery v := stripQuery_append_no hq
    unfold canonicalArk
    rw [h1, h2]
    congr 2
    simp [List.filter_append, hc]

theorem junk_false_of_alpha (c : Char)
    (h : (65 ≤ c.toNat ∧ c.toNat ≤ 90) ∨ (97 ≤ c.toNat ∧ c.toNat ≤ 122)) :
    isJunkChar c = false := by
  by_contra hb
  have hj : isJunkChar c = true := by
    cases hcj : isJunkChar c
    · exact absurd hcj hb
    · rfl
  simp only [isJunkChar, isWhitespaceChar, Bool.or_eq_true, decide_eq_true_eq] at hj
  rcases hj with ((((((hws | h1) | h2) | h3) | h4) | h5) | h6) | h7
  · omega
  · rw [h1] at h; exact absurd h (by decide)
  · rw [h2] at h; exact absurd h (by decide)
  · rw [h3] at h; exact absurd h (by decide)
  · rw [h4] at h; exact absurd h (by decide)
  · rw [h5] at h; exact absurd h (by decide)
  · rw [h6] at h; exact absurd h (by decide)
  · rw [h7] at h; exact absurd h (by decide)

theorem junk_asciiLower (c : Char) : isJunkChar (asciiLower c) = isJunkChar c := by
  unfold asciiLower
  split
  · rename_i h
    have hv : (Char.ofNat (c.toNat + 32)).toNat = c.toNat + 32 :=
      toNat_ofNat_valid _ (by omega)
    rw [junk_false_of_alpha c (Or.inl h),
      junk_false_of_alpha _ (Or.inr (by rw [hv]; omega))]
  · rfl

theorem map_asciiLower_filter_junk (l : List Char) :
    (l.filter (fun c => !(isJunkChar c))).map asciiLower =
      (l.map asciiLower).filter (fun c => !(isJunkChar c)) := by
  induction l with
  | nil => rfl
  | cons c cs ih =>
    cases hc : isJunkChar c with
    | true =>
      simp [List.filter_cons, hc, junk_asciiLower, ih]
    | false =>
      simp [List.filter_cons, hc, junk_asciiLower, ih]

theorem utf8Len_append (a b : List Char) : utf8Len (a ++ b) = utf8Len a + utf8Len b := by
  simp [utf8Len]

theorem utf8Drop_ark (m : List Char) : utf8Drop 4 (str "ark:" ++ m) = m := by
  have h : str "ark:" = ['a', 'r', 'k', ':'] := by decide
  have s1 : Char.utf8Size 'a' = 1 := by decide
  have s2 : Char.utf8Size 'r' = 1 := by decide
  have s3 : Char.utf8Size 'k' = 1 := by decide
  have s4 : Char.utf8Size ':' = 1 := by decide
  rw [h]
  simp [utf8Drop, s1, s2, s3, s4]

theorem utf8Len_pos {m : List Char} (h : m ≠ []) : 1 ≤ utf8Len m := by
  cases m with
  | nil => exact absurd rfl h
  | cons x xs =>
    have := Char.utf8Size_pos x
    simp only [utf8Len, List.map_cons, List.sum_cons]
    omega

theorem lowerNaan_structured (m rest : List Char) (hm : ∀ c ∈ m, c ≠ '/') :
    lowerNaanStep (str "ark:" ++ (m ++ '/' :: rest)) =
      str "ark:" ++ (m.map asciiLower ++ '/' :: rest) := by
  have hmpred : ∀ c ∈ m, (fun c => decide (c ≠ '/')) c = true :=
    fun c hc => by simpa using hm c hc
  have hark : ∀ c ∈ str "ark:", (fun c => decide (c ≠ '/')) c = true := by decide
  have hpre : (str "ark:" ++ (m ++ '/' :: rest)).takeWhile (fun c => decide (c ≠ '/')) =
      str "ark:" ++ m := by
    rw [List.takeWhile_append_of_pos hark, List.takeWhile_append_of_pos hmpred]
    simp
  have hrest : (str "ark:" ++ (m ++ '/' :: rest)).dropWhile (fun c => decide (c ≠ '/')) =
      '/' :: rest := by
    rw [List.dropWhile_append_of_pos hark, List.dropWhile_append_of_pos hmpred]
    simp
  unfold lowerNaanStep
  rw [hpre, hrest]
  rw [if_neg (by simp)]
  cases hm0 : m with
  | nil =>
    rw [if_neg (by simp [utf8Len_append]; decide)]
    simp
  | cons x xs =>
    have hlen : 4 < utf8Len (str "ark:" ++ m) := by
      rw [utf8Len_append]
      have h1 : utf8Len (str "ark:") = 4 := by decide
      have h2 : 1 ≤ utf8Len m := utf8Len_pos (by rw [hm0]; simp)
      omega
    rw [hm0] at hlen
    rw [if_pos hlen, utf8Drop_ark]
    rw [← hm0]
    simp [List.append_assoc]

theorem canonical_naanCase (n1 n2 r : List Char)
    (h1 : ∀ c ∈ n1, c ≠ '/' ∧ c ≠ '?') (h2 : ∀ c ∈ n2, c ≠ '/' ∧ c ≠ '?')
    (hmap : n1.map asciiLower = n2.map asciiLower) :
    canonicalArk (str "ark:" ++ (n1 ++ '/' :: r)) =
      canonicalArk (str "ark:" ++ (n2 ++ '/' :: r)) := by
  have hq : ∀ (n : List Char), (∀ c ∈ n, c ≠ '/' ∧ c ≠ '?') →
      stripQuery (str "ark:" ++ (n ++ '/' :: r)) =
        str "ark:" ++ (n ++ '/' :: stripQuery r) := by
    intro n hn
    have hnq : '?' ∉ str "ark:" ++ n := by
      intro hmem
      rcases List.mem_append.mp hmem with hmem | hmem
      · exact absurd hmem (by decide)
      · exact (hn _ hmem).2 rfl
    have hshape : str "ark:" ++ (n ++ '/' :: r) = (str "ark:" ++ n) ++ '/' :: r := by simp
    rw [hshape, stripQuery_append_no hnq]
    have : stripQuery ('/' :: r) = '/' :: stripQuery r := by
      simp [stripQuery, List.takeWhile_cons]
    rw [this]
    simp
  have hfil : ∀ (n : List Char),
      ((str "ark:" ++ (n ++ '/' :: stripQuery r)).filter (fun c => !(isJunkChar c))) =
        str "ark:" ++ (n.filter (fun c => !(isJunkChar c)) ++
          '/' :: (stripQuery r).filter (fun c => !(isJunkChar c))) := by
    intro n
    have ha : (str "ark:").filter (fun c => !(isJunkChar c)) = str "ark:" := by decide
    have hjs : isJunkChar '/' = false := by decide
    simp [List.filter_append, List.filter_cons, hjs, ha, List.append_assoc]
  have hfn : ∀ (n : List Char), (∀ c ∈ n, c ≠ '/' ∧ c ≠ '?') →
      ∀ c ∈ n.filter (fun c => !(isJunkChar c)), c ≠ '/' :=
    fun n hn c hc => (hn c (List.mem_of_mem_filter hc)).1
  unfold canonicalArk
  rw [hq n1 h1, hq n2 h2, hfil n1, hfil n2,
    lowerNaan_structured _ _ (hfn n1 h1), lowerNaan_structured _ _ (hfn n2 h2)]
  have : (n1.filter (fun c => !(isJunkChar c))).map asciiLower =
      (n2.filter (fun c => !(isJunkChar c))).map asciiLower := by
    rw [map_asciiLower_filter_junk, map_asciiLower_filter_junk, hmap]
  rw [this]

theorem lowerNaan_append_last (l : List Char) (c : Char) (h : '/' ∈ l) :
    lowerNaanStep (l ++ [c]) = lowerNaanStep l ++ [c] := by
  have hpre : (l ++ [c]).takeWhile (fun c => decide (c ≠ '/')) =
      l.takeWhile (fun c => decide (c ≠ '/')) :=
    takeWhile_append_of_mem_not ⟨'/', h, by simp⟩
  have hdw_ne : l.dropWhile (fun c => decide (c ≠ '/')) ≠ [] := by
    intro hnil
    have hall := List.dropWhile_eq_nil_iff.mp hnil
    have h2 := hall '/' h
    simp at h2
  have hemp : (l.dropWhile (fun c => decide (c ≠ '/'))).isEmpty = false := by
    cases hdd : l.dropWhile (fun c => decide (c ≠ '/')) with
    | nil => exact absurd hdd hdw_ne
    | cons a as => rfl
  have hrest : (l ++ [c]).dropWhile (fun c => decide (c ≠ '/')) =
      l.dropWhile (fun c => decide (c ≠ '/')) ++ [c] := by
    rw [List.dropWhile_append, hemp]
    simp
  unfold lowerNaanStep
  rw [hpre, hrest]
  rw [if_neg (by simp), if_neg hdw_ne]
  split
  · simp [List.append_assoc]
  · rfl

theorem trimTrail_append_sep (x : List Char) (c : Char) (h : c = '/' ∨ c = '.') :
    trimTrailSlashDot (x ++ [c]) = trimTrailSlashDot x := by
  unfold trimTrailSlashDot
  rw [show (x ++ [c]).reverse = c :: x.reverse by simp]
  rw [List.dropWhile_cons, if_pos (by rcases h with h | h <;> rw [h] <;> decide)]

theorem canonical_trailSep (x : List Char) (c : Char) (hcs : c = '/' ∨ c = '.')
    (hsl : '?' ∉ x → '/' ∈ x) :
    canonicalArk (x ++ [c]) = canonicalArk x := by
  by_cases hq : '?' ∈ x
  · unfold canonicalArk
    rw [stripQuery_append_mem hq]
  · have hslash := hsl hq
    have hcq : c ≠ '?' := by rcases hcs with h | h <;> rw [h] <;> decide
    have h1 : stripQuery (x ++ [c]) = x ++ [c] := by
      apply stripQuery_eq_self
      intro hmem
      rcases List.mem_append.mp hmem with hm | hm
      · exact hq hm
      · simp at hm
        exact hcq hm.symm
    have h2 : stripQuery x = x := stripQuery_eq_self hq
    have hcj : isJunkChar c = false := by rcases hcs with h | h <;> rw [h] <;> decide
    unfold canonicalArk
    rw [h1, h2, List.filter_append]
    have h3 : [c].filter (fun c => !(isJunkChar c)) = [c] := by
      simp [List.filter_cons, hcj]
    rw [h3]
    have hmemf : '/' ∈ x.filter (fun c => !(isJunkChar c)) :=
      List.mem_filter.mpr ⟨hslash, by decide⟩
    rw [lowerNaan_append_last _ c hmemf, trimTrail_append_sep _ c hcs]

theorem normalize_stripQuery_congr {a b : List Char} (h : stripQuery a = stripQuery b) :
    normalize_ark_string a = normalize_ark_string b := by
  simp only [normalize_ark_string]
  rw [h]

theorem stripQuery_append_query (x t : List Char) (hq : '?' ∉ x) :
    stripQuery (x ++ '?' :: t) = x := by
  rw [stripQuery_append_no hq]
  simp [stripQuery, List.takeWhile_cons]

theorem step_normalize_eq (x y : List Char) (h : ArkVariantStep x y) :
    normalize_ark_string x = normalize_ark_string y := by
  cases h with
  | insertJunk u v c hc hx hy hGx hGy =>
    subst hx
    subst hy
    rw [normalize_guarded _ hGx, normalize_guarded _ hGy]
    exact (canonical_insertJunk u v c hc).symm
  | naanCase n1 n2 r hx hy h1 h2 hmap hGx hGy =>
    subst hx
    subst hy
    rw [normalize_guarded _ hGx, normalize_guarded _ hGy]
    exact canonical_naanCase n1 n2 r h1 h2 hmap
  | trailSep c hcs hy hsl hGx hGy =>
    subst hy
    rw [normalize_guarded _ hGx, normalize_guarded _ hGy]
    exact (canonical_trailSep x c hcs hsl).symm
  | query t hq hy =>
    subst hy
    apply normalize_stripQuery_congr
    rw [stripQuery_append_query x t hq, stripQuery_eq_self hq]

theorem variant_normalize_eq (x y : List Char) (h : ArkVariant x y) :
    normalize_ark_string x = normalize_ark_string y := by
  induction h with
  | refl => rfl
  | tail hab hbc ih =>
    rcases hbc with hs | hs
    · exact ih.trans (step_normalize_eq _ _ hs)
    · exact ih.trans (step_normalize_eq _ _ hs).symm

theorem parse_ark_normalized (s : List Char) (a : Ark) (h : parse_ark s = some a) :
    a.normalized_ark = normalize_ark_string s := by
  simp only [parse_ark] at h
  split at h
  · split at h
    · exact absurd h (by simp)
    · split at h
      · exact absurd h (by simp)
      · rw [← Option.some.inj h]
  · exact absurd h (by simp)

/-- C7 (counterexample): `ark:/1/x6` and `ark: /1/x6` differ only by one
whitespace character; both parse, but the inserted space hides the `ark:/`
prefix from the collapse step, which runs before whitespace stripping, so the
normalized forms — and hence the Arks under `PartialEq` — differ. -/
theorem C7_counterexample :
    (str "ark: /1/x6").filter (fun c => !(isWhitespaceChar c)) = str "ark:/1/x6" ∧
      (parse_ark (str "ark:/1/x6")).map Ark.normalized_ark = some (str "ark:1/x6") ∧
      (parse_ark (str "ark: /1/x6")).map Ark.normalized_ark = some (str "ark:/1/x6") ∧
      str "ark:1/x6" ≠ str "ark:/1/x6" :=
  ⟨by decide, by decide, by decide, by decide⟩

/-- C7 (amended): two accepted inputs related by a chain of the claim's
differences — hyphen/dash/whitespace insertions or removals, ASCII case
changes of the NAAN, trailing `/` or `.`, or an appended query string — parse
to equal Arks, provided along the chain the query-stripped strings never
contain the substring `ark:/` (the collapse of the alternate prefix form is
what the counterexample exploits), a trailing separator is appended only
when a `/` separator already occurs, and NAAN case changes are ASCII. -/
theorem C7_variant_equiv (s1 s2 : List Char) (a1 a2 : Ark)
    (hrel : ArkVariant s1 s2)
    (h1 : parse_ark s1 = some a1) (h2 : parse_ark s2 = some a2) :
    arkEq a1 a2 := by
  unfold arkEq
  rw [parse_ark_normalized s1 a1 h1, parse_ark_normalized s2 a2 h2]
  exact variant_normalize_eq s1 s2 hrel

/-- C7 (witness): the spec's own worked example pair,
`ark:12345/x54xz321` and `ark:12345/x5-4-xz-321`, joined by three hyphen
insertions; the parsed Arks are equal. -/
theorem C7_variant_witness :
    parse_ark (str "ark:12345/x54xz321") =
        some { original := str "ark:12345/x54xz321", naan := str "12345",
               shoulder := str "x5", blade := str "4xz321", qualifier := [],
               normalized_ark := str "ark:12345/x54xz321" } ∧
      parse_ark (str "ark:12345/x5-4-xz-321") =
        some { original := str "ark:12345/x5-4-xz-321", naan := str "12345",
               shoulder := str "x5", blade := str "-4-xz-321", qualifier := [],
               normalized_ark := str "ark:12345/x54xz321" } ∧
      arkEq
        { original := str "ark:12345/x54xz321", naan := str "12345",
          shoulder := str "x5", blade := str "4xz321", qualifier := [],
          normalized_ark := str "ark:12345/x54xz321" }
        { original := str "ark:12345/x5-4-xz-321", naan := str "12345",
          shoulder := str "x5", blade := str "-4-xz-321", qualifier := [],
          normalized_ark := str "ark:12345/x54xz321" } := by
  have step1 : ArkVariantStep (str "ark:12345/x54xz321") (str "ark:12345/x5-4xz321") :=
    ArkVariantStep.insertJunk _ _ (str "ark:12345/x5") (str "4xz321") '-'
      (by decide) (by decide) (by decide) (by decide) (by decide)
  have step2 : ArkVariantStep (str "ark:12345/x5-4xz321") (str "ark:12345/x5-4-xz321") :=
    ArkVariantStep.insertJunk _ _ (str "ark:12345/x5-4") (str "xz321") '-'
      (by decide) (by decide) (by decide) (by decide) (by decide)
  have step3 : ArkVariantStep (str "ark:12345/x5-4-xz321") (str "ark:12345/x5-4-xz-321") :=
    ArkVariantStep.insertJunk _ _ (str "ark:12345/x5-4-xz") (str "321") '-'
      (by decide) (by decide) (by decide) (by decide) (by decide)
  have hrel : ArkVariant (str "ark:12345/x54xz321") (str "ark:12345/x5-4-xz-321") :=
    Relation.ReflTransGen.head (Or.inl step1)
      (Relation.ReflTransGen.head (Or.inl step2)
        (Relation.ReflTransGen.single (Or.inl step3)))
  exact ⟨by decide, by decide,
    C7_variant_equiv _ _ _ _ hrel (by decide) (by decide)⟩

end ArkService
